import Mathlib

/-!
# Receiver feedback-control loop (`src/index.mjs`)

A shallow embedding of the `Receiver` class and of `applyPresetToSynth`.

* JavaScript numbers are `JSNum`: a rational, `NaN`, or one of the two
  infinities.  The propagation of `NaN` and of the infinities through `+`, `*`,
  `Math.max`, `Math.min` and `Math.sin` follows ECMAScript.
* Two arithmetic layers.  In the exact layer (`JSNum.add`, `JSNum.mul`, `step`)
  an operation on finite numbers returns the exact rational; it serves the
  properties that rounding and overflow do not touch.  In the double layer
  (`addD`, `mulD`, `stepD`) every operation on finite numbers and every decimal
  literal goes through `fl`, the round-to-nearest of IEEE 754 binary64, which
  rounds and overflows; `IEEERounding` lists what is assumed of `fl`.  Range and
  distance properties of the control value are proved in the double layer.
* The `field` module, the `wave` engine and the `wave/visualizer` class are
  imported by the source and are not part of it: they are parameters
  (`FieldModule`, `Engine`, `VisualizerClass`), as are `Math.sin` and the
  ambient audio factory (`Host`).
-/

namespace ReceiverModel

/-! ## JavaScript values -/

/-- A JavaScript number: finite (a rational here), NaN, -Infinity or +Infinity. -/
inductive JSNum where
  | nan
  | ninf
  | fin (q : ℚ)
  | pinf
  deriving DecidableEq

namespace JSNum

/-- The JavaScript `+` on numbers, exact on finite numbers; `addD` is the rounded
sum of doubles. -/
def add : JSNum → JSNum → JSNum
  | nan, _ => nan
  | _, nan => nan
  | pinf, ninf => nan
  | ninf, pinf => nan
  | pinf, _ => pinf
  | _, pinf => pinf
  | ninf, _ => ninf
  | _, ninf => ninf
  | fin a, fin b => fin (a + b)

/-- Unary minus. -/
def neg : JSNum → JSNum
  | nan => nan
  | ninf => pinf
  | pinf => ninf
  | fin a => fin (-a)

/-- An infinity scaled by a finite factor: the sign decides, zero gives NaN. -/
def scaleInf (positive : Bool) (a : ℚ) : JSNum :=
  if a = 0 then nan
  else if (0 < a) = positive then pinf else ninf

/-- The JavaScript `*` on numbers, exact on finite numbers; `mulD` is the rounded
product of doubles. -/
def mul : JSNum → JSNum → JSNum
  | nan, _ => nan
  | _, nan => nan
  | pinf, pinf => pinf
  | ninf, ninf => pinf
  | pinf, ninf => ninf
  | ninf, pinf => ninf
  | pinf, fin a => scaleInf true a
  | fin a, pinf => scaleInf true a
  | ninf, fin a => scaleInf false a
  | fin a, ninf => scaleInf false a
  | fin a, fin b => fin (a * b)

/-- The JavaScript binary `-`. -/
def sub (a b : JSNum) : JSNum := add a (neg b)

/-- The function `Math.max` of two arguments: NaN if either is NaN. -/
def max : JSNum → JSNum → JSNum
  | nan, _ => nan
  | _, nan => nan
  | pinf, _ => pinf
  | _, pinf => pinf
  | ninf, b => b
  | a, ninf => a
  | fin a, fin b => fin (Max.max a b)

/-- The function `Math.min` of two arguments: NaN if either is NaN. -/
def min : JSNum → JSNum → JSNum
  | nan, _ => nan
  | _, nan => nan
  | ninf, _ => ninf
  | _, ninf => ninf
  | pinf, b => b
  | a, pinf => a
  | fin a, fin b => fin (Min.min a b)

/-- The JavaScript `<=`: false as soon as one side is NaN. -/
def le : JSNum → JSNum → Prop
  | nan, _ => False
  | _, nan => False
  | ninf, _ => True
  | _, pinf => True
  | pinf, _ => False
  | _, ninf => False
  | fin a, fin b => a ≤ b

instance decLe (a b : JSNum) : Decidable (le a b) := by
  cases a <;> cases b <;> unfold le <;> infer_instance

/-- A finite number lying in the closed interval `[lo, hi]`. -/
def Within (lo hi : ℚ) (x : JSNum) : Prop :=
  ∃ q : ℚ, x = fin q ∧ lo ≤ q ∧ q ≤ hi

end JSNum

/-- The JavaScript values that reach the Receiver's `typeof`, `??` and
truthiness tests; records are typed structures of their own. -/
inductive JSVal where
  | undefined
  | null
  | bool (b : Bool)
  | num (x : JSNum)
  | str (s : String)
  deriving DecidableEq

/-! ## Module constants and helpers -/

def STEP_DEFAULT_DT : JSNum := .fin (16 / 1000)
def VALUE_CENTER : JSNum := .fin (1 / 2)
def VALUE_AMPLITUDE : JSNum := .fin (1 / 2)
def VALUE_FREQ_BASE : JSNum := .fin (1 / 2)
def JITTER_MAX : JSNum := .fin (1 / 10)
def JITTER_DECAY : JSNum := .fin (98 / 100)
def JITTER_STEP_BASE : JSNum := .fin (1 / 100)
def JITTER_STEP_SCALE : JSNum := .fin (6 / 100)

/-- The constant `Math.PI`, the double 3.141592653589793. -/
def MATH_PI : JSNum := .fin (3141592653589793 / 1000000000000000)

/-- Source: `function clamp01(x) { return Math.max(0, Math.min(1, x)) }`. -/
def clamp01 (x : JSNum) : JSNum := JSNum.max (.fin 0) (JSNum.min (.fin 1) x)

/-- Source: `function clampSym(x, m) { return Math.max(-m, Math.min(m, x)) }`. -/
def clampSym (x m : JSNum) : JSNum := JSNum.max (JSNum.neg m) (JSNum.min m x)

/-- The function `Math.sin`: NaN at NaN and at the infinities, the host's sine
elsewhere. -/
def mathSin (sin : ℚ → ℚ) : JSNum → JSNum
  | .fin q => .fin (sin q)
  | _ => .nan

/-- The operator `??` with a numeric default: the default replaces only
`null` and `undefined`. -/
def nullish (v : JSVal) (dflt : JSNum) : JSVal :=
  match v with
  | .undefined => .num dflt
  | .null => .num dflt
  | w => w

/-! ## Records exchanged with the collaborators -/

/-- The `persona` sub-record of a Field State. -/
structure Persona where
  phase : JSVal
  energy : JSVal
  plasticity : JSVal
  deriving DecidableEq

/-- The object literal `{}` that stands in for a falsy `persona`. -/
def Persona.empty : Persona := ⟨.undefined, .undefined, .undefined⟩

/-- A Preset object; a falsy preset is `none : Option Preset`. -/
structure Preset where
  delay : JSVal
  entropy : JSVal
  refinement : JSVal
  coupling : JSVal
  value : JSVal
  deriving DecidableEq

/-- A signal such as `{ type: 'noop' }`. -/
structure Signal where
  type : String
  deriving DecidableEq

/-- The observation `{ entropy }` folded into the Field State. -/
structure Observation where
  entropy : JSVal
  deriving DecidableEq

/-- An audio output handle. -/
structure AudioContext where
  id : Nat
  deriving DecidableEq

/-- A rendering surface handle. -/
structure Canvas where
  id : Nat
  deriving DecidableEq

/-- The record `{ field, mode, wave }` returned by `step` and `getSnapshot`;
`wave = none` is `null`. -/
structure Snapshot (F M W : Type) where
  field : F
  mode : M
  wave : Option W

/-! ## Collaborators (imported by the source, taken as parameters) -/

/-- The functions imported from `field`, over an opaque Field State `F` and an
opaque mode `M`; `persona` reads the `persona` property (`none` when falsy). -/
structure FieldModule (F M : Type) where
  initFieldState : JSVal → F
  fieldToWavePreset : F → Option Preset
  fieldToReceiverMode : F → M
  applySignal : F → Signal → F
  applyWaveObservation : F → Observation → F
  persona : F → Option Persona

/-- The class `PersonaWavetableSynth` over an opaque engine state `σ` and an
opaque state snapshot `W`.  Every method the Receiver probes for is optional
(`none` when the property is missing); `getState` may return a falsy value
(`none`). -/
structure Engine (σ W : Type) where
  create : AudioContext → σ
  setDelay : Option (σ → JSNum → σ)
  setEntropy : Option (σ → JSNum → σ)
  setRefinement : Option (σ → JSNum → σ)
  setCoupling : Option (σ → JSNum → σ)
  setValue : Option (σ → JSNum → σ)
  getState : Option (σ → Option W)
  richnessNorm : W → JSVal

/-- The class `Visualizer` over an opaque state `ν`.  A result `none` of
`construct`, `setSynth` or `start` is a thrown exception; a method that is
`none` is missing. -/
structure VisualizerClass (ν σ : Type) where
  construct : Option Canvas → Option ν
  setSynth : Option (ν → σ → Option ν)
  start : Option (ν → Option ν)
  setEntropy : Option (ν → JSNum → ν)
  setRefinement : Option (ν → JSNum → ν)
  setSmear : Option (ν → JSNum → ν)

/-- The host environment: the sine behind `Math.sin` and the ambient audio
factory tested by `HAS_WINDOW_AUDIO` (`some c` when `new AC()` yields `c`). -/
structure Host where
  sin : ℚ → ℚ
  windowAudio : Option AudioContext

/-- Everything the Receiver depends on. -/
structure Deps (F M σ W ν : Type) where
  field : FieldModule F M
  engine : Engine σ W
  visualizer : VisualizerClass ν σ
  host : Host

/-! ## The Receiver -/

/-- The fields of a `Receiver` instance (`time` is `_time`, `jitter` is
`_jitter`). -/
structure Receiver (F σ ν : Type) where
  name : String
  fieldState : F
  audioContext : Option AudioContext
  synth : Option σ
  time : JSNum
  jitter : JSNum
  preset : Option Preset
  canvas : Option Canvas
  visualizer : Option ν

/-- The options object of the constructor; a missing `name` is `none`. -/
structure Config where
  seed : JSVal
  audioContext : Option AudioContext
  canvas : Option Canvas
  initialPreset : Option Preset
  name : Option String

section Operations

variable {F M σ W ν : Type}

/-- One line of `applyPresetToSynth`:
`if (typeof x === 'number' && synth.setX) synth.setX(x)`. -/
def callSetter (setter : Option (σ → JSNum → σ)) (v : JSVal) (s : σ) : σ :=
  match v, setter with
  | .num x, some f => f s x
  | _, _ => s

/-- Source: `applyPresetToSynth(synth, preset)`; returns the engine handle after
the setter calls. -/
def applyPresetToSynth (e : Engine σ W) (synth : Option σ) (preset : Option Preset) :
    Option σ :=
  match preset, synth with
  | some p, some s =>
    let s := callSetter e.setDelay p.delay s
    let s := callSetter e.setEntropy p.entropy s
    let s := callSetter e.setRefinement p.refinement s
    let s := callSetter e.setCoupling p.coupling s
    let s := callSetter e.setValue p.value s
    some s
  | _, _ => synth

/-- The guarded read
`if (this.synth && typeof this.synth.getState === 'function') waveState = this.synth.getState()`
starting from `waveState = null`. -/
def readState (e : Engine σ W) (synth : Option σ) : Option W :=
  match synth, e.getState with
  | some s, some g => g s
  | _, _ => none

/-- Line 92: the pre-push entropy scalar. -/
def entropyOf (e : Engine σ W) (waveState : Option W) : JSNum :=
  match waveState with
  | some w =>
    match e.richnessNorm w with
    | .num x => clamp01 x
    | _ => .fin 0
  | none => .fin 0

/-- Lines 93-94: the plasticity read from the persona sub-record. -/
def plasticityOf (fm : FieldModule F M) (f : F) : JSNum :=
  let persona := (fm.persona f).getD Persona.empty
  match persona.plasticity with
  | .num x => clamp01 x
  | _ => .fin (1 / 2)

/-- Lines 95-96: the jitter update for the random draw `u`, in exact arithmetic
(`nextJitterD` on doubles). -/
def nextJitter (jitter plasticity : JSNum) (u : ℚ) : JSNum :=
  let jitterStep := JSNum.mul (JSNum.sub (.fin u) (.fin (1 / 2)))
    (JSNum.add JITTER_STEP_BASE (JSNum.mul JITTER_STEP_SCALE plasticity))
  clampSym (JSNum.add (JSNum.mul jitter JITTER_DECAY) jitterStep) JITTER_MAX

/-- Lines 97-98: the sinusoid `base`, in exact arithmetic (`controlBaseD` on
doubles). -/
def controlBase (h : Host) (time entropy : JSNum) : JSNum :=
  let freq := JSNum.mul VALUE_FREQ_BASE (JSNum.add (.fin (1 / 2)) entropy)
  JSNum.add VALUE_CENTER
    (JSNum.mul VALUE_AMPLITUDE (mathSin h.sin (JSNum.mul (JSNum.mul time MATH_PI) freq)))

/-- Line 99: `t = clamp01(base + this._jitter)`, in exact arithmetic
(`controlValueD` on doubles). -/
def controlValue (h : Host) (time entropy jitter : JSNum) : JSNum :=
  clamp01 (JSNum.add (controlBase h time entropy) jitter)

/-- Line 100: the guarded `this.synth.setValue(t)`. -/
def pushValue (e : Engine σ W) (synth : Option σ) (t : JSNum) : Option σ :=
  match synth, e.setValue with
  | some s, some f => some (f s t)
  | _, _ => synth

/-- A guarded call of an optional visualizer setter. -/
def callViz (setter : Option (ν → JSNum → ν)) (x : JSNum) (v : ν) : ν :=
  match setter with
  | some f => f v x
  | none => v

/-- Line 106: the refinement shown by the visualizer. -/
def refinementOf (preset : Option Preset) : JSNum :=
  match preset with
  | some p =>
    match p.refinement with
    | .num x => x
    | _ => .fin (1 / 2)
  | none => .fin (1 / 2)

/-- Lines 103-110: the visualizer updates. -/
def driveVisualizer (vc : VisualizerClass ν σ) (visualizer : Option ν)
    (entropy : JSNum) (preset : Option Preset) (plasticity : JSNum) : Option ν :=
  match visualizer with
  | some v =>
    let v := callViz vc.setEntropy entropy v
    let v := callViz vc.setRefinement (refinementOf preset) v
    let v := callViz vc.setSmear plasticity v
    some v
  | none => none

/-- Line 111: the observation folded back into the field. -/
def observationOf (e : Engine σ W) (waveState : Option W) (entropy : JSNum) : Observation :=
  match waveState with
  | some w => ⟨nullish (e.richnessNorm w) (.fin 0)⟩
  | none => ⟨.num entropy⟩

/-- The time after `this._time += dt`, with the default `dt`. -/
def stepTime (r : Receiver F σ ν) (dt : Option JSNum) : JSNum :=
  JSNum.add r.time (dt.getD STEP_DEFAULT_DT)

/-- The pre-push entropy of a tick. -/
def stepEntropy (d : Deps F M σ W ν) (r : Receiver F σ ν) : JSNum :=
  entropyOf d.engine (readState d.engine r.synth)

/-- The jitter after a tick with random draw `u`. -/
def stepJitter (d : Deps F M σ W ν) (r : Receiver F σ ν) (u : ℚ) : JSNum :=
  nextJitter r.jitter (plasticityOf d.field r.fieldState) u

/-- The control value `t` computed by a tick. -/
def stepControl (d : Deps F M σ W ν) (r : Receiver F σ ν) (dt : Option JSNum) (u : ℚ) :
    JSNum :=
  controlValue d.host (stepTime r dt) (stepEntropy d r) (stepJitter d r u)

/-- Source: `Receiver.step(dt)`, with `u` the value of `Math.random()`.
Returns the tick output and the Receiver after the tick. -/
def step (d : Deps F M σ W ν) (r : Receiver F σ ν) (dt : Option JSNum) (u : ℚ) :
    Snapshot F M W × Receiver F σ ν :=
  let time := stepTime r dt
  let mode := d.field.fieldToReceiverMode r.fieldState
  let entropy := stepEntropy d r
  let plasticity := plasticityOf d.field r.fieldState
  let jitter := stepJitter d r u
  let t := stepControl d r dt u
  let synth := pushValue d.engine r.synth t
  let waveState := readState d.engine synth
  let visualizer := driveVisualizer d.visualizer r.visualizer entropy r.preset plasticity
  let observation := observationOf d.engine waveState entropy
  let fieldState := d.field.applyWaveObservation r.fieldState observation
  (⟨fieldState, mode, waveState⟩,
    { r with time := time, jitter := jitter, synth := synth, visualizer := visualizer,
             fieldState := fieldState })

/-- Source: `Receiver.getSnapshot()`; the second component is the Receiver after
the call. -/
def getSnapshot (d : Deps F M σ W ν) (r : Receiver F σ ν) :
    Snapshot F M W × Receiver F σ ν :=
  let mode := d.field.fieldToReceiverMode r.fieldState
  let waveState := readState d.engine r.synth
  (⟨r.fieldState, mode, waveState⟩, r)

/-- Source: `Receiver.setPreset(preset)`. -/
def setPreset (d : Deps F M σ W ν) (r : Receiver F σ ν) (preset : Option Preset) :
    Receiver F σ ν :=
  match preset with
  | none => r
  | some p =>
    { r with preset := some p, synth := applyPresetToSynth d.engine r.synth (some p) }

/-- Source: `Receiver.applySignal(signal)`. -/
def applySignal (d : Deps F M σ W ν) (r : Receiver F σ ν) (signal : Signal) :
    Receiver F σ ν :=
  let fieldState := d.field.applySignal r.fieldState signal
  let preset := d.field.fieldToWavePreset fieldState
  { r with fieldState := fieldState, preset := preset,
           synth := applyPresetToSynth d.engine r.synth preset }

/-- Source: `Receiver._initVisualizer(canvas)`; a throw inside the `try` block
leaves `visualizer = null`. -/
def initVisualizer (d : Deps F M σ W ν) (r : Receiver F σ ν) (canvas : Option Canvas) :
    Receiver F σ ν :=
  let attempt : Option ν :=
    (d.visualizer.construct canvas).bind fun v =>
      (match r.synth, d.visualizer.setSynth with
        | some s, some f => f v s
        | _, _ => some v).bind fun v1 =>
          match d.visualizer.start with
          | some f => f v1
          | none => some v1
  { r with canvas := canvas, visualizer := attempt }

/-- Source: `Receiver.attachCanvas(canvas)`. -/
def attachCanvas (d : Deps F M σ W ν) (r : Receiver F σ ν) (canvas : Option Canvas) :
    Receiver F σ ν :=
  match r.synth with
  | none => r
  | some _ => initVisualizer d r canvas

/-- Source: the constructor of `Receiver`. -/
def construct (d : Deps F M σ W ν) (cfg : Config) : Receiver F σ ν :=
  let seed := match cfg.seed with
    | .undefined => JSVal.num (.fin 0)
    | v => v
  let fieldState := d.field.initFieldState seed
  let ctx := match cfg.audioContext with
    | some c => some c
    | none => d.host.windowAudio
  let synth := ctx.map d.engine.create
  let basePreset := d.field.fieldToWavePreset fieldState
  let preset := match cfg.initialPreset with
    | some p => some p
    | none => basePreset
  let r : Receiver F σ ν :=
    { name := cfg.name.getD "receiver", fieldState := fieldState, audioContext := ctx,
      synth := applyPresetToSynth d.engine synth preset, time := .fin 0, jitter := .fin 0,
      preset := preset, canvas := none, visualizer := none }
  match cfg.canvas, r.synth with
  | some c, some _ => initVisualizer d r (some c)
  | _, _ => r

/-- A call on the Receiver's synchronous surface; `step` carries the value
that `Math.random()` returns during the call. -/
inductive Call where
  | step (dt : Option JSNum) (u : ℚ)
  | setPreset (preset : Option Preset)
  | applySignal (signal : Signal)
  | getSnapshot
  | attachCanvas (canvas : Option Canvas)

/-- The Receiver after one call. -/
def exec (d : Deps F M σ W ν) (r : Receiver F σ ν) : Call → Receiver F σ ν
  | .step dt u => (step d r dt u).2
  | .setPreset p => setPreset d r p
  | .applySignal s => applySignal d r s
  | .getSnapshot => (getSnapshot d r).2
  | .attachCanvas c => attachCanvas d r c

/-- The Receiver after a sequence of calls, first call first. -/
def run (d : Deps F M σ W ν) (r : Receiver F σ ν) (calls : List Call) : Receiver F σ ν :=
  calls.foldl (exec d) r

/-- The function `Math.abs`. -/
def JSNum.abs : JSNum → JSNum
  | .nan => .nan
  | .ninf => .pinf
  | .pinf => .pinf
  | .fin a => .fin |a|

/-- The jitter bound `Math.abs(jitter) <= JITTER_MAX`. -/
def JitterBounded (j : JSNum) : Prop := JSNum.le (JSNum.abs j) JITTER_MAX

instance decJitterBounded (j : JSNum) : Decidable (JitterBounded j) := by
  unfold JitterBounded; infer_instance

/-- The Field State's `persona.plasticity` is the number NaN. -/
def NaNPlasticity (fm : FieldModule F M) (f : F) : Prop :=
  ((fm.persona f).getD Persona.empty).plasticity = .num .nan

end Operations

/-! ## Sample collaborators for concrete evaluations -/

/-- A field module whose Field State is just the persona slot: the initial
plasticity is the seed, and signals and observations leave the state alone. -/
def seedField : FieldModule (Option Persona) Unit where
  initFieldState := fun seed => some ⟨.str "rut", .num (.fin (1 / 2)), seed⟩
  fieldToWavePreset := fun _ => none
  fieldToReceiverMode := fun _ => ()
  applySignal := fun f _ => f
  applyWaveObservation := fun f _ => f
  persona := fun f => f

/-- An engine with no methods at all. -/
def bareEngine : Engine Unit Unit where
  create := fun _ => ()
  setDelay := none
  setEntropy := none
  setRefinement := none
  setCoupling := none
  setValue := none
  getState := none
  richnessNorm := fun _ => .undefined

/-- A visualizer class whose constructor throws. -/
def noVisualizer (σ : Type) : VisualizerClass Unit σ where
  construct := fun _ => none
  setSynth := none
  start := none
  setEntropy := none
  setRefinement := none
  setSmear := none

/-- A host without ambient audio and with a flat sine. -/
def quietHost : Host where
  sin := fun _ => 0
  windowAudio := none

/-- The headless world built from the sample collaborators. -/
def seedDeps : Deps (Option Persona) Unit Unit Unit Unit where
  field := seedField
  engine := bareEngine
  visualizer := noVisualizer Unit
  host := quietHost

/-- The constructor options `{ seed }`. -/
def seedConfig (seed : JSVal) : Config where
  seed := seed
  audioContext := none
  canvas := none
  initialPreset := none
  name := none

/-- A field module with the persona of the test suite (`phase: 'rut'`,
`energy: 0.5`, `plasticity: 0.5`) for every seed, unchanged by signals and
observations. -/
def steadyField : FieldModule (Option Persona) Unit where
  initFieldState := fun _ => some ⟨.str "rut", .num (.fin (1 / 2)), .num (.fin (1 / 2))⟩
  fieldToWavePreset := fun _ => none
  fieldToReceiverMode := fun _ => ()
  applySignal := fun f _ => f
  applyWaveObservation := fun f _ => f
  persona := fun f => f

/-- The headless world over `steadyField`. -/
def steadyDeps : Deps (Option Persona) Unit Unit Unit Unit where
  field := steadyField
  engine := bareEngine
  visualizer := noVisualizer Unit
  host := quietHost

/-- The parameter surface of a synthesis engine. -/
structure EngineParams where
  delay : JSNum
  entropy : JSNum
  refinement : JSNum
  coupling : JSNum
  value : JSNum
  deriving DecidableEq

/-- Which of the optional engine methods exist. -/
structure Capabilities where
  hasSetDelay : Bool
  hasSetEntropy : Bool
  hasSetRefinement : Bool
  hasSetCoupling : Bool
  hasSetValue : Bool
  hasGetState : Bool

/-- Every optional engine method exists. -/
def allCapabilities : Capabilities := ⟨true, true, true, true, true, true⟩

/-- Modelled from the spec: the class `PersonaWavetableSynth` of the `wave`
package, "stateful audio parameter surface; accepts discrete parameter updates
and a primary scalar control value; exposes a readable state snapshot including
a normalized richness measure", with "optional setters" and an "optional
getState".  Each setter that exists overwrites its own parameter, `getState`
returns the parameters, and `richness` is the measure read from a snapshot. -/
def paramEngine (caps : Capabilities) (richness : EngineParams → JSVal) :
    Engine EngineParams EngineParams where
  create := fun _ => ⟨.fin 0, .fin 0, .fin 0, .fin 0, .fin 0⟩
  setDelay := if caps.hasSetDelay then some (fun s x => { s with delay := x }) else none
  setEntropy := if caps.hasSetEntropy then some (fun s x => { s with entropy := x }) else none
  setRefinement :=
    if caps.hasSetRefinement then some (fun s x => { s with refinement := x }) else none
  setCoupling := if caps.hasSetCoupling then some (fun s x => { s with coupling := x }) else none
  setValue := if caps.hasSetValue then some (fun s x => { s with value := x }) else none
  getState := if caps.hasGetState then some (fun s => some s) else none
  richnessNorm := richness

/-- The parameter value after one guarded setter line: overwritten when the
preset field is a number and the setter exists, kept otherwise. -/
def overwritten (cap : Bool) (v : JSVal) (old : JSNum) : JSNum :=
  match v with
  | .num x => if cap then x else old
  | _ => old

/-- A world with the full parameter engine, richness constantly 0.5, and no
visualizer. -/
def engineDeps : Deps (Option Persona) Unit EngineParams EngineParams Unit where
  field := steadyField
  engine := paramEngine allCapabilities (fun _ => .num (.fin (1 / 2)))
  visualizer := noVisualizer EngineParams
  host := quietHost

/-- The constructor options `{ seed: 42, audioContext }` with an audio handle. -/
def audioConfig : Config where
  seed := .num (.fin 42)
  audioContext := some ⟨0⟩
  canvas := none
  initialPreset := none
  name := none

/-- The range test `0 <= t && t <= 1`. -/
def InUnitInterval (t : JSNum) : Prop := JSNum.le (.fin 0) t ∧ JSNum.le t (.fin 1)

/-- The read `field.persona.energy` of the test suite (`none` when the persona
is missing). -/
def energyOf {F M : Type} (fm : FieldModule F M) (f : F) : Option JSVal :=
  (fm.persona f).map fun persona => persona.energy

/-- The observation as the specification words it: "post-push richness if
available, else pre-push entropy", the richness being available when the
post-push state exists and its `richnessNorm` is neither `null` nor
`undefined`. -/
def specObservation {σ W : Type} (e : Engine σ W) (postState : Option W) (entropy : JSNum) :
    Observation :=
  match postState with
  | some w =>
    match e.richnessNorm w with
    | .undefined => ⟨.num entropy⟩
    | .null => ⟨.num entropy⟩
    | v => ⟨v⟩
  | none => ⟨.num entropy⟩

/-- A field module whose Field State is the list of the observations folded so
far, latest first; it has no persona. -/
def logField : FieldModule (List Observation) Unit where
  initFieldState := fun _ => []
  fieldToWavePreset := fun _ => none
  fieldToReceiverMode := fun _ => ()
  applySignal := fun f _ => f
  applyWaveObservation := fun f o => o :: f
  persona := fun _ => none

/-- A richness measure that is 0.7 while the control value is 0 and missing
afterwards. -/
def fadingRichness (s : EngineParams) : JSVal :=
  if s.value = .fin 0 then .num (.fin (7 / 10)) else .undefined

/-- A world that logs its observations, with the full parameter engine and
`fadingRichness`. -/
def logDeps : Deps (List Observation) Unit EngineParams EngineParams Unit where
  field := logField
  engine := paramEngine allCapabilities fadingRichness
  visualizer := noVisualizer EngineParams
  host := quietHost

/-- A visualizer class that records every scalar pushed to it, latest first. -/
def logVisualizer (σ : Type) : VisualizerClass (List JSNum) σ where
  construct := fun _ => some []
  setSynth := some (fun v _ => some v)
  start := some (fun v => some v)
  setEntropy := some (fun v x => x :: v)
  setRefinement := some (fun v x => x :: v)
  setSmear := some (fun v x => x :: v)

/-- The world of `engineDeps` with the recording visualizer. -/
def visualDeps : Deps (Option Persona) Unit EngineParams EngineParams (List JSNum) where
  field := steadyField
  engine := paramEngine allCapabilities (fun _ => .num (.fin (1 / 2)))
  visualizer := logVisualizer EngineParams
  host := quietHost

/-- The constructor options `{ seed: 42, audioContext, canvas }`. -/
def canvasConfig : Config where
  seed := .num (.fin 42)
  audioContext := some ⟨0⟩
  canvas := some ⟨0⟩
  initialPreset := none
  name := none

/-- Line 49 of `_initVisualizer`: the guarded `v.setSynth(this.synth)`; `none` is
a throw. -/
def bindSynth {ν σ : Type} (vc : VisualizerClass ν σ) (synth : Option σ) (v : ν) : Option ν :=
  match synth, vc.setSynth with
  | some s, some f => f v s
  | _, _ => some v

/-- Line 50 of `_initVisualizer`: the guarded `v.start()`; `none` is a throw. -/
def startVisualizer {ν σ : Type} (vc : VisualizerClass ν σ) (v : ν) : Option ν :=
  match vc.start with
  | some f => f v
  | none => some v

/-- A visualizer class that accepts only the surface 0 and records the scalars
pushed to it. -/
def pickyVisualizer (σ : Type) : VisualizerClass (List JSNum) σ where
  construct := fun c => if c = some ⟨0⟩ then some [] else none
  setSynth := some (fun v _ => some v)
  start := some (fun v => some v)
  setEntropy := some (fun v x => x :: v)
  setRefinement := some (fun v x => x :: v)
  setSmear := some (fun v x => x :: v)

/-- The world of `visualDeps` with the picky visualizer. -/
def pickyDeps : Deps (Option Persona) Unit EngineParams EngineParams (List JSNum) where
  field := steadyField
  engine := paramEngine allCapabilities (fun _ => .num (.fin (1 / 2)))
  visualizer := pickyVisualizer EngineParams
  host := quietHost

/-- The value `jitter * JITTER_DECAY + jitterStep` of line 96 before the clamp. -/
def rawJitter (jitter plasticity : JSNum) (u : ℚ) : JSNum :=
  JSNum.add (JSNum.mul jitter JITTER_DECAY)
    (JSNum.mul (JSNum.sub (.fin u) (.fin (1 / 2)))
      (JSNum.add JITTER_STEP_BASE (JSNum.mul JITTER_STEP_SCALE plasticity)))

/-- The fold of the observation `{ entropy: 0 }`, repeated `n` times. -/
def foldZero {F M : Type} (fm : FieldModule F M) : Nat → F → F
  | 0, f => f
  | n + 1, f => foldZero fm n (fm.applyWaveObservation f ⟨.num (.fin 0)⟩)

/-! ## Double-precision layer -/

/-- The largest finite double, `Number.MAX_VALUE = (2^53 - 1) * 2^971`. -/
def MAX_VALUE : ℚ := (2 ^ 53 - 1) * 2 ^ 971

/-- The decimal literal printed for `Math.PI`. -/
def PI_LITERAL : ℚ := 3141592653589793 / 1000000000000000

/-- What is assumed of `fl`, the map from the exact result of an arithmetic
operation on doubles (or from the exact value of a decimal literal) to the
double the machine produces, IEEE 754 binary64 with round-to-nearest:
it never yields NaN, is monotone, leaves 0, 1/2, -1/2 and 1 alone, yields a
finite double with relative error at most `2^-53` (absolute error at most
`2^-1075` among the subnormals) when the exact value is within the finite range,
yields finite doubles of magnitude at most `MAX_VALUE` only, and overflows to an
infinity from `2^1024` on. -/
structure IEEERounding (fl : ℚ → JSNum) : Prop where
  ne_nan : ∀ q, fl q ≠ .nan
  mono : ∀ p q, p ≤ q → JSNum.le (fl p) (fl q)
  exact_zero : fl 0 = .fin 0
  exact_half : fl (1 / 2) = .fin (1 / 2)
  exact_neg_half : fl (-(1 / 2)) = .fin (-(1 / 2))
  exact_one : fl 1 = .fin 1
  error : ∀ q, |q| ≤ MAX_VALUE → ∃ x, fl q = .fin x ∧ |x - q| ≤ |q| / 2 ^ 53 + 1 / 2 ^ 1075
  bounded : ∀ q x, fl q = .fin x → |x| ≤ MAX_VALUE
  overflow_pos : ∀ q, 2 ^ 1024 ≤ q → fl q = .pinf
  overflow_neg : ∀ q, q ≤ -2 ^ 1024 → fl q = .ninf

/-- The JavaScript `+` on doubles: the exact sum of two finite numbers is
rounded by `fl`. -/
def addD (fl : ℚ → JSNum) : JSNum → JSNum → JSNum
  | .nan, _ => .nan
  | _, .nan => .nan
  | .pinf, .ninf => .nan
  | .ninf, .pinf => .nan
  | .pinf, _ => .pinf
  | _, .pinf => .pinf
  | .ninf, _ => .ninf
  | _, .ninf => .ninf
  | .fin a, .fin b => fl (a + b)

/-- The JavaScript `*` on doubles: the exact product of two finite numbers is
rounded by `fl`. -/
def mulD (fl : ℚ → JSNum) : JSNum → JSNum → JSNum
  | .nan, _ => .nan
  | _, .nan => .nan
  | .pinf, .pinf => .pinf
  | .ninf, .ninf => .pinf
  | .pinf, .ninf => .ninf
  | .ninf, .pinf => .ninf
  | .pinf, .fin a => JSNum.scaleInf true a
  | .fin a, .pinf => JSNum.scaleInf true a
  | .ninf, .fin a => JSNum.scaleInf false a
  | .fin a, .ninf => JSNum.scaleInf false a
  | .fin a, .fin b => fl (a * b)

/-- The JavaScript binary `-` on doubles. -/
def subD (fl : ℚ → JSNum) (a b : JSNum) : JSNum := addD fl a (JSNum.neg b)

/-- Lines 95-96 on doubles: the literals `0.5`, `0.01`, `0.06`, `0.98`, `0.1` are
the doubles `fl` makes of them. -/
def nextJitterD (fl : ℚ → JSNum) (jitter plasticity : JSNum) (u : ℚ) : JSNum :=
  let jitterStep := mulD fl (subD fl (.fin u) (fl (1 / 2)))
    (addD fl (fl (1 / 100)) (mulD fl (fl (6 / 100)) plasticity))
  clampSym (addD fl (mulD fl jitter (fl (98 / 100))) jitterStep) (fl (1 / 10))

/-- Line 97 on doubles: `freq = VALUE_FREQ_BASE * (0.5 + entropy)`. -/
def freqD (fl : ℚ → JSNum) (entropy : JSNum) : JSNum :=
  mulD fl (fl (1 / 2)) (addD fl (fl (1 / 2)) entropy)

/-- The argument of `Math.sin` on line 98, `this._time * Math.PI * freq`, on
doubles. -/
def sineArgD (fl : ℚ → JSNum) (time entropy : JSNum) : JSNum :=
  mulD fl (mulD fl time (fl PI_LITERAL)) (freqD fl entropy)

/-- Line 98 on doubles: the sinusoid `base`. -/
def controlBaseD (fl : ℚ → JSNum) (h : Host) (time entropy : JSNum) : JSNum :=
  addD fl (fl (1 / 2)) (mulD fl (fl (1 / 2)) (mathSin h.sin (sineArgD fl time entropy)))

/-- Line 99 on doubles: `t = clamp01(base + this._jitter)`. -/
def controlValueD (fl : ℚ → JSNum) (h : Host) (time entropy jitter : JSNum) : JSNum :=
  clamp01 (addD fl (controlBaseD fl h time entropy) jitter)

section DoubleOperations

variable {F M σ W ν : Type}

/-- The time after `this._time += dt` on doubles, with the default `dt`. -/
def stepTimeD (fl : ℚ → JSNum) (r : Receiver F σ ν) (dt : Option JSNum) : JSNum :=
  addD fl r.time (dt.getD (fl (16 / 1000)))

/-- The jitter after a tick on doubles. -/
def stepJitterD (fl : ℚ → JSNum) (d : Deps F M σ W ν) (r : Receiver F σ ν) (u : ℚ) : JSNum :=
  nextJitterD fl r.jitter (plasticityOf d.field r.fieldState) u

/-- The sinusoid `base` of a tick on doubles. -/
def stepBaseD (fl : ℚ → JSNum) (d : Deps F M σ W ν) (r : Receiver F σ ν)
    (dt : Option JSNum) : JSNum :=
  controlBaseD fl d.host (stepTimeD fl r dt) (stepEntropy d r)

/-- The control value `t` of a tick on doubles. -/
def stepControlD (fl : ℚ → JSNum) (d : Deps F M σ W ν) (r : Receiver F σ ν)
    (dt : Option JSNum) (u : ℚ) : JSNum :=
  controlValueD fl d.host (stepTimeD fl r dt) (stepEntropy d r) (stepJitterD fl d r u)

/-- Source: `Receiver.step(dt)` on doubles, with `u` the value of
`Math.random()`.  The reads, guards, setter calls and the fold are those of
`step`; the arithmetic of lines 88 and 95-99 is rounded by `fl`. -/
def stepD (fl : ℚ → JSNum) (d : Deps F M σ W ν) (r : Receiver F σ ν) (dt : Option JSNum)
    (u : ℚ) : Snapshot F M W × Receiver F σ ν :=
  let time := stepTimeD fl r dt
  let mode := d.field.fieldToReceiverMode r.fieldState
  let entropy := stepEntropy d r
  let plasticity := plasticityOf d.field r.fieldState
  let jitter := stepJitterD fl d r u
  let t := stepControlD fl d r dt u
  let synth := pushValue d.engine r.synth t
  let waveState := readState d.engine synth
  let visualizer := driveVisualizer d.visualizer r.visualizer entropy r.preset plasticity
  let observation := observationOf d.engine waveState entropy
  let fieldState := d.field.applyWaveObservation r.fieldState observation
  (⟨fieldState, mode, waveState⟩,
    { r with time := time, jitter := jitter, synth := synth, visualizer := visualizer,
             fieldState := fieldState })

end DoubleOperations

/-- A rounding that is exact on the finite range of the doubles and overflows
outside it. -/
def saturate (q : ℚ) : JSNum :=
  if MAX_VALUE < q then .pinf else if q < -MAX_VALUE then .ninf else .fin q

/-! ## Numeric lemmas -/

section NumericLemmas

open JSNum

theorem within_ne_nan {lo hi : ℚ} {x : JSNum} (h : Within lo hi x) : x ≠ .nan := by
  obtain ⟨q, rfl, -⟩ := h
  simp

theorem clamp01_nan : clamp01 .nan = .nan := rfl

theorem clamp01_within {x : JSNum} (hx : x ≠ .nan) : Within 0 1 (clamp01 x) := by
  cases x with
  | nan => exact absurd rfl hx
  | ninf => exact ⟨0, rfl, le_refl _, by norm_num⟩
  | pinf => exact ⟨1, by simp [clamp01, JSNum.min, JSNum.max], by norm_num, le_refl _⟩
  | fin a =>
    refine ⟨Max.max 0 (Min.min 1 a), rfl, le_max_left _ _, ?_⟩
    exact max_le (by norm_num) (min_le_left _ _)

theorem clampSym_within {x : JSNum} (hx : x ≠ .nan) :
    Within (-(1 / 10)) (1 / 10) (clampSym x JITTER_MAX) := by
  cases x with
  | nan => exact absurd rfl hx
  | ninf => exact ⟨-(1 / 10), rfl, le_refl _, by norm_num⟩
  | pinf =>
    exact ⟨1 / 10, by simp [clampSym, JITTER_MAX, JSNum.min, JSNum.max, JSNum.neg],
      by norm_num, le_refl _⟩
  | fin a =>
    refine ⟨Max.max (-(1 / 10)) (Min.min (1 / 10) a), rfl, le_max_left _ _, ?_⟩
    exact max_le (by norm_num) (min_le_left _ _)

theorem jitterBounded_of_within {j : JSNum} (h : Within (-(1 / 10)) (1 / 10) j) :
    JitterBounded j := by
  obtain ⟨q, rfl, h1, h2⟩ := h
  show |q| ≤ 1 / 10
  exact abs_le.mpr ⟨h1, h2⟩

theorem mul_decay_ne_nan {j : JSNum} (hj : j ≠ .nan) : JSNum.mul j JITTER_DECAY ≠ .nan := by
  cases j with
  | nan => exact absurd rfl hj
  | ninf => simp [JITTER_DECAY, JSNum.mul, scaleInf]
  | pinf => simp [JITTER_DECAY, JSNum.mul, scaleInf]
  | fin a => simp [JITTER_DECAY, JSNum.mul]

theorem add_fin_ne_nan {x : JSNum} (hx : x ≠ .nan) (b : ℚ) : JSNum.add x (.fin b) ≠ .nan := by
  cases x <;> simp_all [JSNum.add]

theorem jitterStep_fin (u : ℚ) {p : JSNum} (hp : Within 0 1 p) :
    ∃ b : ℚ, JSNum.mul (JSNum.sub (.fin u) (.fin (1 / 2)))
      (JSNum.add JITTER_STEP_BASE (JSNum.mul JITTER_STEP_SCALE p)) = .fin b := by
  obtain ⟨q, rfl, -⟩ := hp
  exact ⟨_, rfl⟩

theorem nextJitter_within {j p : JSNum} (u : ℚ) (hj : j ≠ .nan) (hp : Within 0 1 p) :
    Within (-(1 / 10)) (1 / 10) (nextJitter j p u) := by
  obtain ⟨b, hb⟩ := jitterStep_fin u hp
  unfold nextJitter
  simp only [hb]
  exact clampSym_within (add_fin_ne_nan (mul_decay_ne_nan hj) b)

end NumericLemmas

/-! ## The jitter accumulator -/

section Jitter

variable {F M σ W ν : Type}

theorem plasticityOf_within (fm : FieldModule F M) (f : F) (h : ¬ NaNPlasticity fm f) :
    JSNum.Within 0 1 (plasticityOf fm f) := by
  unfold NaNPlasticity at h
  unfold plasticityOf
  dsimp only
  generalize ((fm.persona f).getD Persona.empty).plasticity = v at h
  cases v with
  | num x =>
    have hx : x ≠ .nan := fun hx => h (by rw [hx])
    exact clamp01_within hx
  | undefined => exact ⟨1 / 2, rfl, by norm_num, by norm_num⟩
  | null => exact ⟨1 / 2, rfl, by norm_num, by norm_num⟩
  | bool b => exact ⟨1 / 2, rfl, by norm_num, by norm_num⟩
  | str s => exact ⟨1 / 2, rfl, by norm_num, by norm_num⟩

@[simp] theorem initVisualizer_jitter (d : Deps F M σ W ν) (r : Receiver F σ ν)
    (c : Option Canvas) : (initVisualizer d r c).jitter = r.jitter := rfl

@[simp] theorem initVisualizer_fieldState (d : Deps F M σ W ν) (r : Receiver F σ ν)
    (c : Option Canvas) : (initVisualizer d r c).fieldState = r.fieldState := rfl

@[simp] theorem initVisualizer_time (d : Deps F M σ W ν) (r : Receiver F σ ν)
    (c : Option Canvas) : (initVisualizer d r c).time = r.time := rfl

theorem construct_jitter (d : Deps F M σ W ν) (cfg : Config) :
    (construct d cfg).jitter = .fin 0 := by
  unfold construct
  dsimp only
  split <;> rfl

theorem construct_time (d : Deps F M σ W ν) (cfg : Config) :
    (construct d cfg).time = .fin 0 := by
  unfold construct
  dsimp only
  split <;> rfl

theorem construct_fieldState (d : Deps F M σ W ν) (cfg : Config) :
    ∃ seed, (construct d cfg).fieldState = d.field.initFieldState seed := by
  unfold construct
  dsimp only
  split <;> exact ⟨_, rfl⟩

theorem setPreset_frame (d : Deps F M σ W ν) (r : Receiver F σ ν) (p : Option Preset) :
    (setPreset d r p).jitter = r.jitter ∧ (setPreset d r p).time = r.time ∧
      (setPreset d r p).fieldState = r.fieldState := by
  cases p <;> exact ⟨rfl, rfl, rfl⟩

theorem attachCanvas_frame (d : Deps F M σ W ν) (r : Receiver F σ ν) (c : Option Canvas) :
    (attachCanvas d r c).jitter = r.jitter ∧ (attachCanvas d r c).time = r.time ∧
      (attachCanvas d r c).fieldState = r.fieldState := by
  unfold attachCanvas
  cases r.synth <;> exact ⟨rfl, rfl, rfl⟩

/-- The invariant carried along a run: the plasticity is not NaN and the jitter
is a finite number within the bound. -/
theorem exec_preserves_jitter (d : Deps F M σ W ν)
    (hSig : ∀ f s, ¬ NaNPlasticity d.field f → ¬ NaNPlasticity d.field (d.field.applySignal f s))
    (hObs : ∀ f o, ¬ NaNPlasticity d.field f →
      ¬ NaNPlasticity d.field (d.field.applyWaveObservation f o))
    (r : Receiver F σ ν) (c : Call)
    (hf : ¬ NaNPlasticity d.field r.fieldState)
    (hj : JSNum.Within (-(1 / 10)) (1 / 10) r.jitter) :
    ¬ NaNPlasticity d.field (exec d r c).fieldState ∧
      JSNum.Within (-(1 / 10)) (1 / 10) (exec d r c).jitter := by
  cases c with
  | step dt u =>
    refine ⟨hObs _ _ hf, ?_⟩
    exact nextJitter_within u (within_ne_nan hj) (plasticityOf_within d.field _ hf)
  | setPreset p =>
    obtain ⟨h1, -, h3⟩ := setPreset_frame d r p
    simp only [exec, h1, h3]
    exact ⟨hf, hj⟩
  | applySignal s => exact ⟨hSig _ _ hf, hj⟩
  | getSnapshot => exact ⟨hf, hj⟩
  | attachCanvas c =>
    obtain ⟨h1, -, h3⟩ := attachCanvas_frame d r c
    simp only [exec, h1, h3]
    exact ⟨hf, hj⟩

theorem run_preserves_jitter (d : Deps F M σ W ν)
    (hSig : ∀ f s, ¬ NaNPlasticity d.field f → ¬ NaNPlasticity d.field (d.field.applySignal f s))
    (hObs : ∀ f o, ¬ NaNPlasticity d.field f →
      ¬ NaNPlasticity d.field (d.field.applyWaveObservation f o))
    (calls : List Call) (r : Receiver F σ ν)
    (hf : ¬ NaNPlasticity d.field r.fieldState)
    (hj : JSNum.Within (-(1 / 10)) (1 / 10) r.jitter) :
    JSNum.Within (-(1 / 10)) (1 / 10) (run d r calls).jitter := by
  induction calls generalizing r with
  | nil => exact hj
  | cons c cs ih =>
    obtain ⟨hf1, hj1⟩ := exec_preserves_jitter d hSig hObs r c hf hj
    exact ih (exec d r c) hf1 hj1

/-- C1 (as stated, refuted): a Receiver constructed over a Field State whose
`persona.plasticity` is NaN has jitter NaN after one `step`, and
`Math.abs(NaN) <= 0.1` is false. -/
theorem c1_jitter_nan_plasticity :
    (run seedDeps (construct seedDeps (seedConfig (.num .nan)))
        [Call.step (some (.fin (1 / 10))) (3 / 4)]).jitter = .nan ∧
      ¬ JitterBounded (run seedDeps (construct seedDeps (seedConfig (.num .nan)))
        [Call.step (some (.fin (1 / 10))) (3 / 4)]).jitter := by
  have h : (run seedDeps (construct seedDeps (seedConfig (.num .nan)))
      [Call.step (some (.fin (1 / 10))) (3 / 4)]).jitter = .nan := rfl
  refine ⟨h, ?_⟩
  rw [h]
  exact fun hb => hb

/-- C1 (amended): if the field module never yields a Field State whose
`persona.plasticity` is NaN (its initialiser does not, and its signal and
observation transforms preserve this), then after every call of any finite
sequence of `step` (any `dt`, any random draw), `setPreset`, `applySignal`,
`getSnapshot` and `attachCanvas` calls on a freshly constructed Receiver the
jitter satisfies `|jitter| <= 0.1`. -/
theorem c1_jitter_bounded (d : Deps F M σ W ν) (cfg : Config) (calls : List Call)
    (hInit : ∀ seed, ¬ NaNPlasticity d.field (d.field.initFieldState seed))
    (hSig : ∀ f s, ¬ NaNPlasticity d.field f → ¬ NaNPlasticity d.field (d.field.applySignal f s))
    (hObs : ∀ f o, ¬ NaNPlasticity d.field f →
      ¬ NaNPlasticity d.field (d.field.applyWaveObservation f o)) :
    JitterBounded (run d (construct d cfg) calls).jitter := by
  apply jitterBounded_of_within
  apply run_preserves_jitter d hSig hObs
  · obtain ⟨seed, hs⟩ := construct_fieldState d cfg
    rw [hs]
    exact hInit seed
  · rw [construct_jitter]
    exact ⟨0, rfl, by norm_num, by norm_num⟩

end Jitter

/-- C1 (amended), evaluated on the headless sample world: four calls after
construction with seed 42. -/
theorem c1_jitter_bounded_witness :
    JitterBounded (run steadyDeps (construct steadyDeps (seedConfig (.num (.fin 42))))
      [Call.step none (9 / 10), Call.applySignal ⟨"burst"⟩, Call.getSnapshot,
        Call.step (some (.fin (1 / 10))) 0]).jitter :=
  c1_jitter_bounded steadyDeps _ _
    (fun _ h => by simp [NaNPlasticity, steadyDeps, steadyField] at h)
    (fun _ _ h => h) (fun _ _ h => h)

/-! ## The control value -/

section Control

variable {F M σ W ν : Type}

theorem inUnitInterval_of_within {t : JSNum} (h : JSNum.Within 0 1 t) : InUnitInterval t := by
  obtain ⟨q, rfl, h0, h1⟩ := h
  exact ⟨h0, h1⟩

theorem entropyOf_within (e : Engine σ W) (ws : Option W)
    (h : ∀ w, ws = some w → e.richnessNorm w ≠ .num .nan) :
    JSNum.Within 0 1 (entropyOf e ws) := by
  unfold entropyOf
  cases ws with
  | none => exact ⟨0, rfl, le_refl _, by norm_num⟩
  | some w =>
    have hw := h w rfl
    dsimp only
    generalize e.richnessNorm w = v at hw
    cases v with
    | num x =>
      have hx : x ≠ .nan := fun hx => hw (by rw [hx])
      exact clamp01_within hx
    | undefined => exact ⟨0, rfl, le_refl _, by norm_num⟩
    | null => exact ⟨0, rfl, le_refl _, by norm_num⟩
    | bool b => exact ⟨0, rfl, le_refl _, by norm_num⟩
    | str s => exact ⟨0, rfl, le_refl _, by norm_num⟩

end Control

/-! ## The time accumulator -/

section Time

variable {F M σ W ν : Type}

theorem add_monotone {t x : JSNum} (ht : t ≠ .nan) (hn : t ≠ .ninf)
    (hx : JSNum.le (.fin 0) x) :
    JSNum.le t (JSNum.add t x) ∧ JSNum.add t x ≠ .nan ∧ JSNum.add t x ≠ .ninf := by
  cases t with
  | nan => exact absurd rfl ht
  | ninf => exact absurd rfl hn
  | pinf => cases x <;> simp_all [JSNum.add, JSNum.le]
  | fin a =>
    cases x with
    | nan => exact absurd hx (by simp [JSNum.le])
    | ninf => exact absurd hx (by simp [JSNum.le])
    | pinf => simp [JSNum.add, JSNum.le]
    | fin b =>
      have hb : (0 : ℚ) ≤ b := hx
      refine ⟨?_, by simp [JSNum.add], by simp [JSNum.add]⟩
      show a ≤ a + b
      linarith

/-- C3 (as stated, refuted): `step(-1)` on a freshly constructed Receiver takes
the time from 0 to -1. -/
theorem c3_time_decreases :
    (construct seedDeps (seedConfig (.num (.fin 42)))).time = .fin 0 ∧
      (step seedDeps (construct seedDeps (seedConfig (.num (.fin 42))))
        (some (.fin (-1))) (1 / 2)).2.time = .fin (-1) ∧
      ¬ JSNum.le (construct seedDeps (seedConfig (.num (.fin 42)))).time
        (step seedDeps (construct seedDeps (seedConfig (.num (.fin 42))))
          (some (.fin (-1))) (1 / 2)).2.time := by
  have h : (step seedDeps (construct seedDeps (seedConfig (.num (.fin 42))))
      (some (.fin (-1))) (1 / 2)).2.time = .fin (-1) := by
    show JSNum.fin (0 + -1) = .fin (-1)
    norm_num
  refine ⟨rfl, h, ?_⟩
  rw [h]
  show ¬ ((0 : ℚ) ≤ -1)
  norm_num

/-- C3 (amended): the time is 0 at construction; for every Receiver state whose
time is neither NaN nor -Infinity and every `dt` with `0 <= dt` (the default
included), the time after `step` is not less than before and is again neither
NaN nor -Infinity; `setPreset`, `applySignal`, `getSnapshot` and `attachCanvas`
leave the time as it was. -/
theorem c3_time_monotone (d : Deps F M σ W ν) (cfg : Config) (r : Receiver F σ ν)
    (dt : Option JSNum) (u : ℚ) (p : Option Preset) (s : Signal) (c : Option Canvas)
    (hDt : JSNum.le (.fin 0) (dt.getD STEP_DEFAULT_DT))
    (hNaN : r.time ≠ .nan) (hInf : r.time ≠ .ninf) :
    (construct d cfg).time = .fin 0 ∧
      JSNum.le r.time (step d r dt u).2.time ∧
      (step d r dt u).2.time ≠ .nan ∧ (step d r dt u).2.time ≠ .ninf ∧
      (setPreset d r p).time = r.time ∧ (applySignal d r s).time = r.time ∧
      (getSnapshot d r).2.time = r.time ∧ (attachCanvas d r c).time = r.time := by
  obtain ⟨h1, h2, h3⟩ := add_monotone hNaN hInf hDt
  exact ⟨construct_time d cfg, h1, h2, h3, (setPreset_frame d r p).2.1, rfl, rfl,
    (attachCanvas_frame d r c).2.1⟩

/-- C3 (amended), evaluated: the three `step(0.1)` calls of the integration
test, at the second call. -/
theorem c3_time_monotone_witness :
    (construct steadyDeps (seedConfig (.num (.fin 42)))).time = .fin 0 ∧
      JSNum.le (run steadyDeps (construct steadyDeps (seedConfig (.num (.fin 42))))
          [Call.step (some (.fin (1 / 10))) (1 / 2)]).time
        (step steadyDeps (run steadyDeps (construct steadyDeps (seedConfig (.num (.fin 42))))
          [Call.step (some (.fin (1 / 10))) (1 / 2)]) (some (.fin (1 / 10))) (1 / 2)).2.time :=
  have h := c3_time_monotone steadyDeps (seedConfig (.num (.fin 42)))
    (run steadyDeps (construct steadyDeps (seedConfig (.num (.fin 42))))
      [Call.step (some (.fin (1 / 10))) (1 / 2)])
    (some (.fin (1 / 10))) (1 / 2) none ⟨"noop"⟩ none
    (show (0 : ℚ) ≤ 1 / 10 by norm_num) (by decide) (by decide)
  ⟨h.1, h.2.1⟩

end Time

/-! ## Headless operation -/

section Headless

variable {F M σ W ν : Type}

theorem step_headless (d : Deps F M σ W ν) (r : Receiver F σ ν)
    (hs : r.synth = none) (hv : r.visualizer = none) (dt : Option JSNum) (u : ℚ) :
    (step d r dt u).2.synth = none ∧ (step d r dt u).2.visualizer = none := by
  constructor
  · show pushValue d.engine r.synth _ = none
    rw [hs]; rfl
  · show driveVisualizer d.visualizer r.visualizer _ _ _ = none
    rw [hv]; rfl

theorem run_steps_headless (d : Deps F M σ W ν) (ticks : List (Option JSNum × ℚ))
    (r : Receiver F σ ν) (hs : r.synth = none) (hv : r.visualizer = none) :
    (run d r (ticks.map fun p => Call.step p.1 p.2)).synth = none ∧
      (run d r (ticks.map fun p => Call.step p.1 p.2)).visualizer = none := by
  induction ticks generalizing r with
  | nil => exact ⟨hs, hv⟩
  | cons p ps ih =>
    obtain ⟨h1, h2⟩ := step_headless d r hs hv p.1 p.2
    exact ih (step d r p.1 p.2).2 h1 h2

/-- C4: on a Receiver with no synthesis engine and no visualizer, after any
number of earlier `step` calls (any `dt`, any random draws), `step(dt)` returns
`{ field, mode, wave }` with `wave` null, `field` the Receiver's new Field State
(the fold of the observation `{ entropy: 0 }`) and `mode` the classifier's
result on the Field State at the start of the call, and the Receiver stays
headless. -/
theorem c4_headless_step (d : Deps F M σ W ν) (r : Receiver F σ ν)
    (hs : r.synth = none) (hv : r.visualizer = none)
    (ticks : List (Option JSNum × ℚ)) (dt : Option JSNum) (u : ℚ) :
    (step d (run d r (ticks.map fun p => Call.step p.1 p.2)) dt u).1.wave = none ∧
      (step d (run d r (ticks.map fun p => Call.step p.1 p.2)) dt u).1.field =
        (step d (run d r (ticks.map fun p => Call.step p.1 p.2)) dt u).2.fieldState ∧
      (step d (run d r (ticks.map fun p => Call.step p.1 p.2)) dt u).1.field =
        d.field.applyWaveObservation
          (run d r (ticks.map fun p => Call.step p.1 p.2)).fieldState ⟨.num (.fin 0)⟩ ∧
      (step d (run d r (ticks.map fun p => Call.step p.1 p.2)) dt u).1.mode =
        d.field.fieldToReceiverMode
          (run d r (ticks.map fun p => Call.step p.1 p.2)).fieldState ∧
      (step d (run d r (ticks.map fun p => Call.step p.1 p.2)) dt u).2.synth = none ∧
      (step d (run d r (ticks.map fun p => Call.step p.1 p.2)) dt u).2.visualizer = none := by
  obtain ⟨h1, h2⟩ := run_steps_headless d ticks r hs hv
  generalize run d r (ticks.map fun p => Call.step p.1 p.2) = r1 at h1 h2
  obtain ⟨h3, h4⟩ := step_headless d r1 h1 h2 dt u
  have hw : (step d r1 dt u).1.wave = none := by
    show readState d.engine (pushValue d.engine r1.synth _) = none
    rw [h1]; rfl
  refine ⟨hw, rfl, ?_, rfl, h3, h4⟩
  show d.field.applyWaveObservation r1.fieldState
    (observationOf d.engine (readState d.engine (pushValue d.engine r1.synth _))
      (stepEntropy d r1)) = _
  unfold stepEntropy
  rw [h1]
  rfl

/-- C4, evaluated: the third passive `step(0.1)` of the integration test. -/
theorem c4_headless_step_witness :
    (step steadyDeps (run steadyDeps (construct steadyDeps (seedConfig (.num (.fin 42))))
      ([(some (.fin (1 / 10)), 1 / 2), (some (.fin (1 / 10)), 1 / 3)].map
        fun p => Call.step p.1 p.2)) (some (.fin (1 / 10))) (1 / 4)).1.wave = none :=
  (c4_headless_step steadyDeps (construct steadyDeps (seedConfig (.num (.fin 42)))) rfl rfl
    [(some (.fin (1 / 10)), 1 / 2), (some (.fin (1 / 10)), 1 / 3)]
    (some (.fin (1 / 10))) (1 / 4)).1

end Headless

/-! ## Preset application -/

section PresetApplication

variable {F M ν : Type}

/-- The parameters after `applyPresetToSynth` on the parameter engine. -/
theorem applyPreset_paramEngine (caps : Capabilities) (richness : EngineParams → JSVal)
    (s : EngineParams) (p : Preset) :
    applyPresetToSynth (paramEngine caps richness) (some s) (some p) =
      some { delay := overwritten caps.hasSetDelay p.delay s.delay,
             entropy := overwritten caps.hasSetEntropy p.entropy s.entropy,
             refinement := overwritten caps.hasSetRefinement p.refinement s.refinement,
             coupling := overwritten caps.hasSetCoupling p.coupling s.coupling,
             value := overwritten caps.hasSetValue p.value s.value } := by
  have hD : ∀ (t : EngineParams) (v : JSVal), callSetter (paramEngine caps richness).setDelay v t =
      { t with delay := overwritten caps.hasSetDelay v t.delay } := by
    intro t v
    cases v <;> cases hc : caps.hasSetDelay <;> simp [callSetter, paramEngine, overwritten, hc]
  have hE : ∀ (t : EngineParams) (v : JSVal),
      callSetter (paramEngine caps richness).setEntropy v t =
        { t with entropy := overwritten caps.hasSetEntropy v t.entropy } := by
    intro t v
    cases v <;> cases hc : caps.hasSetEntropy <;> simp [callSetter, paramEngine, overwritten, hc]
  have hR : ∀ (t : EngineParams) (v : JSVal),
      callSetter (paramEngine caps richness).setRefinement v t =
        { t with refinement := overwritten caps.hasSetRefinement v t.refinement } := by
    intro t v
    cases v <;> cases hc : caps.hasSetRefinement <;>
      simp [callSetter, paramEngine, overwritten, hc]
  have hC : ∀ (t : EngineParams) (v : JSVal),
      callSetter (paramEngine caps richness).setCoupling v t =
        { t with coupling := overwritten caps.hasSetCoupling v t.coupling } := by
    intro t v
    cases v <;> cases hc : caps.hasSetCoupling <;> simp [callSetter, paramEngine, overwritten, hc]
  have hV : ∀ (t : EngineParams) (v : JSVal), callSetter (paramEngine caps richness).setValue v t =
      { t with value := overwritten caps.hasSetValue v t.value } := by
    intro t v
    cases v <;> cases hc : caps.hasSetValue <;> simp [callSetter, paramEngine, overwritten, hc]
  unfold applyPresetToSynth
  simp only [hD, hE, hR, hC, hV]

theorem overwritten_idem (cap : Bool) (v : JSVal) (old : JSNum) :
    overwritten cap v (overwritten cap v old) = overwritten cap v old := by
  cases v <;> cases cap <;> rfl

/-- C5: `setPreset` is idempotent over an engine whose setters overwrite a
parameter (whichever of the optional setters exist): for every preset,
including a falsy one, and every Receiver state, `setPreset(p); setPreset(p)`
leaves the same Receiver (engine parameters and stored preset included) as a
single `setPreset(p)`. -/
theorem c5_setPreset_idempotent (fm : FieldModule F M) (vc : VisualizerClass ν EngineParams)
    (host : Host) (caps : Capabilities) (richness : EngineParams → JSVal)
    (r : Receiver F EngineParams ν) (p : Option Preset) :
    setPreset ⟨fm, paramEngine caps richness, vc, host⟩
        (setPreset ⟨fm, paramEngine caps richness, vc, host⟩ r p) p =
      setPreset ⟨fm, paramEngine caps richness, vc, host⟩ r p := by
  cases p with
  | none => rfl
  | some p =>
    cases hs : r.synth with
    | none => simp [setPreset, applyPresetToSynth, hs]
    | some s =>
      simp only [setPreset, hs, applyPreset_paramEngine, overwritten_idem]

/-- C7 (as stated, refuted): on an engine that has a `delay` parameter but no
`setDelay` method, applying the preset `{ delay: 1 }` leaves the delay at 0
although the preset's field is a number. -/
theorem c7_numeric_field_not_applied :
    applyPresetToSynth
        (paramEngine ⟨false, true, true, true, true, true⟩ (fun _ => .undefined))
        (some ⟨.fin 0, .fin 0, .fin 0, .fin 0, .fin 0⟩)
        (some ⟨.num (.fin 1), .undefined, .undefined, .undefined, .undefined⟩) =
        some ⟨.fin 0, .fin 0, .fin 0, .fin 0, .fin 0⟩ ∧
      JSNum.fin 0 ≠ JSNum.fin 1 := by
  rw [applyPreset_paramEngine]
  exact ⟨rfl, by decide⟩

/-- C7 (amended): applying a preset to an engine whose setters overwrite a
parameter sets each of `delay`, `entropy`, `refinement`, `coupling`, `value` to
the preset's field when that field is a number and the engine has the
corresponding setter, and leaves every other parameter as it was (in particular
each one whose preset field is absent or not a number); with no engine, or with
a falsy preset, nothing happens. -/
theorem c7_preset_application (caps : Capabilities) (richness : EngineParams → JSVal)
    (s : EngineParams) (p : Preset) :
    applyPresetToSynth (paramEngine caps richness) (some s) (some p) =
        some { delay := match p.delay with
                 | .num x => if caps.hasSetDelay then x else s.delay
                 | _ => s.delay,
               entropy := match p.entropy with
                 | .num x => if caps.hasSetEntropy then x else s.entropy
                 | _ => s.entropy,
               refinement := match p.refinement with
                 | .num x => if caps.hasSetRefinement then x else s.refinement
                 | _ => s.refinement,
               coupling := match p.coupling with
                 | .num x => if caps.hasSetCoupling then x else s.coupling
                 | _ => s.coupling,
               value := match p.value with
                 | .num x => if caps.hasSetValue then x else s.value
                 | _ => s.value } ∧
      applyPresetToSynth (paramEngine caps richness) none (some p) = none ∧
      applyPresetToSynth (paramEngine caps richness) (some s) none = some s :=
  ⟨applyPreset_paramEngine caps richness s p, rfl, rfl⟩

end PresetApplication

/-! ## Snapshot and signal application -/

section Snapshots

variable {F M σ W ν : Type}

/-- C6 (as stated, refuted): on a Receiver whose engine has no `getState`
method, `getSnapshot` returns `wave: null` although there is an engine. -/
theorem c6_wave_null_with_engine :
    (construct seedDeps audioConfig).synth = some () ∧
      (getSnapshot seedDeps (construct seedDeps audioConfig)).1.wave = none :=
  ⟨rfl, rfl⟩

/-- C6 (amended): `getSnapshot` leaves the Receiver (time, jitter, preset, Field
State, engine) as it was and returns `field` the current Field State, `mode` the
classifier's result on it, and `wave` the result of the engine's `getState()`,
or null when there is no engine or the engine has no `getState` method. -/
theorem c6_getSnapshot_read_only (d : Deps F M σ W ν) (r : Receiver F σ ν) :
    (getSnapshot d r).2 = r ∧
      (getSnapshot d r).1.field = r.fieldState ∧
      (getSnapshot d r).1.mode = d.field.fieldToReceiverMode r.fieldState ∧
      (∀ s g, r.synth = some s → d.engine.getState = some g →
        (getSnapshot d r).1.wave = g s) ∧
      (r.synth = none → (getSnapshot d r).1.wave = none) ∧
      (d.engine.getState = none → (getSnapshot d r).1.wave = none) := by
  refine ⟨rfl, rfl, rfl, ?_, ?_, ?_⟩
  · intro s g hs hg
    show readState d.engine r.synth = g s
    unfold readState
    rw [hs, hg]
  · intro hs
    show readState d.engine r.synth = none
    unfold readState
    rw [hs]
  · intro hg
    show readState d.engine r.synth = none
    unfold readState
    rw [hg]
    cases r.synth <;> rfl

/-- C6 (amended), evaluated on the sample engine just after construction. -/
theorem c6_getSnapshot_read_only_witness :
    (getSnapshot engineDeps (construct engineDeps audioConfig)).2 =
        construct engineDeps audioConfig ∧
      (getSnapshot engineDeps (construct engineDeps audioConfig)).1.wave =
        some ⟨.fin 0, .fin 0, .fin 0, .fin 0, .fin 0⟩ :=
  ⟨(c6_getSnapshot_read_only engineDeps (construct engineDeps audioConfig)).1,
    (c6_getSnapshot_read_only engineDeps (construct engineDeps audioConfig)).2.2.2.1
      ⟨.fin 0, .fin 0, .fin 0, .fin 0, .fin 0⟩ (fun s => some s) rfl rfl⟩

/-- C8: `applySignal(s)` replaces the Field State by the external transform's
result and leaves time and jitter alone; hence, if the transform keeps
`persona.energy` on a noop signal, the energy read from `getSnapshot().field`
is the same before and after `applySignal({ type: 'noop' })` on a freshly
constructed Receiver, for every constructor configuration (every seed). -/
theorem c8_applySignal_field (d : Deps F M σ W ν) (r : Receiver F σ ν) (s : Signal)
    (cfg : Config)
    (hNoop : ∀ f, energyOf d.field (d.field.applySignal f ⟨"noop"⟩) = energyOf d.field f) :
    (applySignal d r s).fieldState = d.field.applySignal r.fieldState s ∧
      (applySignal d r s).time = r.time ∧
      (applySignal d r s).jitter = r.jitter ∧
      energyOf d.field (getSnapshot d (applySignal d (construct d cfg) ⟨"noop"⟩)).1.field =
        energyOf d.field (getSnapshot d (construct d cfg)).1.field :=
  ⟨rfl, rfl, rfl, hNoop _⟩

/-- C8, evaluated: the noop test of the suite (seed 7) over `steadyField`. -/
theorem c8_applySignal_field_witness :
    energyOf steadyDeps.field (getSnapshot steadyDeps
        (applySignal steadyDeps (construct steadyDeps (seedConfig (.num (.fin 7))))
          ⟨"noop"⟩)).1.field =
      energyOf steadyDeps.field
        (getSnapshot steadyDeps (construct steadyDeps (seedConfig (.num (.fin 7))))).1.field :=
  (c8_applySignal_field steadyDeps (construct steadyDeps (seedConfig (.num (.fin 7))))
    ⟨"noop"⟩ (seedConfig (.num (.fin 7))) (fun _ => rfl)).2.2.2

end Snapshots

/-! ## The feedback fold -/

section Feedback

variable {F M σ W ν : Type}

theorem stepControl_logDeps :
    stepControl logDeps (construct logDeps audioConfig) none (1 / 2) = .fin (1 / 2) := by
  simp only [stepControl, controlValue, controlBase, stepTime, stepEntropy, stepJitter,
    entropyOf, readState, plasticityOf, nextJitter, construct, logDeps, logField,
    paramEngine, allCapabilities, fadingRichness, audioConfig, quietHost, applyPresetToSynth,
    Option.map, Option.getD, Persona.empty, clamp01, clampSym, mathSin,
    JSNum.add, JSNum.mul, JSNum.sub, JSNum.neg, JSNum.max, JSNum.min,
    STEP_DEFAULT_DT, VALUE_CENTER, VALUE_AMPLITUDE, VALUE_FREQ_BASE, JITTER_MAX, JITTER_DECAY,
    JITTER_STEP_BASE, JITTER_STEP_SCALE, MATH_PI, if_true]
  norm_num

theorem stepEntropy_logDeps :
    stepEntropy logDeps (construct logDeps audioConfig) = .fin (7 / 10) := by
  simp only [stepEntropy, entropyOf, readState, construct, logDeps, logField,
    paramEngine, allCapabilities, fadingRichness, audioConfig, applyPresetToSynth,
    Option.map, clamp01, JSNum.max, JSNum.min, if_true]
  norm_num

theorem step_synth_logDeps :
    (step logDeps (construct logDeps audioConfig) none (1 / 2)).2.synth =
      some ⟨.fin 0, .fin 0, .fin 0, .fin 0, .fin (1 / 2)⟩ := by
  show pushValue logDeps.engine (construct logDeps audioConfig).synth
    (stepControl logDeps (construct logDeps audioConfig) none (1 / 2)) = _
  rw [stepControl_logDeps]
  rfl

theorem fadingRichness_pushed :
    fadingRichness ⟨.fin 0, .fin 0, .fin 0, .fin 0, .fin (1 / 2)⟩ = .undefined := by
  unfold fadingRichness
  rw [if_neg]
  intro h
  injection h with h
  norm_num at h

theorem step_field_logDeps :
    (step logDeps (construct logDeps audioConfig) none (1 / 2)).2.fieldState =
      [⟨.num (.fin 0)⟩] := by
  show logDeps.field.applyWaveObservation (construct logDeps audioConfig).fieldState
    (observationOf logDeps.engine
      (readState logDeps.engine
        (step logDeps (construct logDeps audioConfig) none (1 / 2)).2.synth)
      (stepEntropy logDeps (construct logDeps audioConfig))) = _
  rw [step_synth_logDeps]
  show [observationOf logDeps.engine (some ⟨.fin 0, .fin 0, .fin 0, .fin 0, .fin (1 / 2)⟩) _] = _
  show [(⟨nullish (fadingRichness ⟨.fin 0, .fin 0, .fin 0, .fin 0, .fin (1 / 2)⟩) (.fin 0)⟩ :
    Observation)] = _
  rw [fadingRichness_pushed]
  rfl

/-- C9 (as stated, refuted): an engine whose richness is 0.7 before the push
and missing after it.  The pre-push entropy scalar is 0.7 and the post-push
measure is not available, yet the observation folded by `step` is
`{ entropy: 0 }`, not `{ entropy: 0.7 }`. -/
theorem c9_fold_zero_not_prepush :
    stepEntropy logDeps (construct logDeps audioConfig) = .fin (7 / 10) ∧
      (step logDeps (construct logDeps audioConfig) none (1 / 2)).2.fieldState =
        [⟨.num (.fin 0)⟩] ∧
      logDeps.field.applyWaveObservation (construct logDeps audioConfig).fieldState
          (specObservation logDeps.engine
            (readState logDeps.engine
              (step logDeps (construct logDeps audioConfig) none (1 / 2)).2.synth)
            (stepEntropy logDeps (construct logDeps audioConfig))) =
        [⟨.num (.fin (7 / 10))⟩] ∧
      (step logDeps (construct logDeps audioConfig) none (1 / 2)).2.fieldState ≠
        logDeps.field.applyWaveObservation (construct logDeps audioConfig).fieldState
          (specObservation logDeps.engine
            (readState logDeps.engine
              (step logDeps (construct logDeps audioConfig) none (1 / 2)).2.synth)
            (stepEntropy logDeps (construct logDeps audioConfig))) := by
  have hSpec : logDeps.field.applyWaveObservation (construct logDeps audioConfig).fieldState
      (specObservation logDeps.engine
        (readState logDeps.engine
          (step logDeps (construct logDeps audioConfig) none (1 / 2)).2.synth)
        (stepEntropy logDeps (construct logDeps audioConfig))) =
      [⟨.num (.fin (7 / 10))⟩] := by
    rw [step_synth_logDeps, stepEntropy_logDeps]
    show [specObservation logDeps.engine (some ⟨.fin 0, .fin 0, .fin 0, .fin 0, .fin (1 / 2)⟩)
      (.fin (7 / 10))] = _
    unfold specObservation
    show [(match fadingRichness ⟨.fin 0, .fin 0, .fin 0, .fin 0, .fin (1 / 2)⟩ with
      | .undefined => (⟨.num (.fin (7 / 10))⟩ : Observation)
      | .null => ⟨.num (.fin (7 / 10))⟩
      | v => ⟨v⟩)] = _
    rw [fadingRichness_pushed]
  refine ⟨stepEntropy_logDeps, step_field_logDeps, hSpec, ?_⟩
  rw [hSpec, step_field_logDeps]
  intro h
  injection h with h _
  injection h with h
  injection h with h
  injection h with h
  norm_num at h

/-- C9 (amended): the Field State after `step` is the external fold of the
Field State before and the observation `{ entropy: e }`, where, with the engine
state read after the push, `e` is its `richnessNorm` when that is neither `null`
nor `undefined`, is 0 when the post-push state exists but its `richnessNorm` is
`null` or `undefined`, and is the pre-push entropy scalar when no post-push
state can be read; that scalar is the clamped pre-push `richnessNorm` when it is
a number and 0 otherwise (no engine, no state, or no numeric measure). -/
theorem c9_feedback_fold (d : Deps F M σ W ν) (r : Receiver F σ ν) (dt : Option JSNum) (u : ℚ) :
    (∀ w, readState d.engine (step d r dt u).2.synth = some w →
        d.engine.richnessNorm w ≠ .undefined → d.engine.richnessNorm w ≠ .null →
        (step d r dt u).2.fieldState =
          d.field.applyWaveObservation r.fieldState ⟨d.engine.richnessNorm w⟩) ∧
      (∀ w, readState d.engine (step d r dt u).2.synth = some w →
        (d.engine.richnessNorm w = .undefined ∨ d.engine.richnessNorm w = .null) →
        (step d r dt u).2.fieldState =
          d.field.applyWaveObservation r.fieldState ⟨.num (.fin 0)⟩) ∧
      (readState d.engine (step d r dt u).2.synth = none →
        (step d r dt u).2.fieldState =
          d.field.applyWaveObservation r.fieldState ⟨.num (stepEntropy d r)⟩) ∧
      (∀ w x, readState d.engine r.synth = some w → d.engine.richnessNorm w = .num x →
        stepEntropy d r = clamp01 x) ∧
      (∀ w, readState d.engine r.synth = some w → (∀ x, d.engine.richnessNorm w ≠ .num x) →
        stepEntropy d r = .fin 0) ∧
      (readState d.engine r.synth = none → stepEntropy d r = .fin 0) ∧
      (step d r dt u).2.synth = pushValue d.engine r.synth (stepControl d r dt u) ∧
      (step d r dt u).1.field = (step d r dt u).2.fieldState := by
  have hField : (step d r dt u).2.fieldState = d.field.applyWaveObservation r.fieldState
      (observationOf d.engine (readState d.engine (step d r dt u).2.synth)
        (stepEntropy d r)) := rfl
  refine ⟨?_, ?_, ?_, ?_, ?_, ?_, rfl, rfl⟩
  · intro w hw h1 h2
    rw [hField, hw]
    unfold observationOf nullish
    dsimp only
    generalize d.engine.richnessNorm w = v at h1 h2
    cases v <;> simp_all
  · intro w hw h
    rw [hField, hw]
    unfold observationOf nullish
    dsimp only
    rcases h with h | h <;> rw [h]
  · intro hw
    rw [hField, hw]
    rfl
  · intro w x hw hx
    unfold stepEntropy entropyOf
    rw [hw]
    dsimp only
    rw [hx]
  · intro w hw hx
    unfold stepEntropy entropyOf
    rw [hw]
    dsimp only
    generalize d.engine.richnessNorm w = v at hx
    cases v with
    | num x => exact absurd rfl (hx x)
    | undefined => rfl
    | null => rfl
    | bool b => rfl
    | str s => rfl
  · intro hw
    unfold stepEntropy entropyOf
    rw [hw]

/-- C9 (amended), evaluated on the logging world: the post-push state exists
and has no richness, so the folded observation is `{ entropy: 0 }`. -/
theorem c9_feedback_fold_witness :
    (step logDeps (construct logDeps audioConfig) none (1 / 2)).2.fieldState =
      logDeps.field.applyWaveObservation (construct logDeps audioConfig).fieldState
        ⟨.num (.fin 0)⟩ :=
  (c9_feedback_fold logDeps (construct logDeps audioConfig) none (1 / 2)).2.1
    ⟨.fin 0, .fin 0, .fin 0, .fin 0, .fin (1 / 2)⟩
    (by rw [step_synth_logDeps]; rfl)
    (Or.inl fadingRichness_pushed)

/-- C10: two Receivers over the same field module, engine and host that agree
on Field State, preset, time, jitter and engine state, whatever their
visualizers (attached or not, of whatever class), produce for the same `dt` and
the same random draw the same control value, the same returned
`{ field, mode, wave }`, and the same new Field State, time, jitter, preset and
engine state. -/
theorem c10_visualizer_non_interference {ν' : Type} (fm : FieldModule F M) (e : Engine σ W)
    (host : Host) (vc : VisualizerClass ν σ) (vc' : VisualizerClass ν' σ)
    (r : Receiver F σ ν) (r' : Receiver F σ ν') (dt : Option JSNum) (u : ℚ)
    (hField : r.fieldState = r'.fieldState) (hPreset : r.preset = r'.preset)
    (hTime : r.time = r'.time) (hJitter : r.jitter = r'.jitter)
    (hSynth : r.synth = r'.synth) :
    stepControl ⟨fm, e, vc, host⟩ r dt u = stepControl ⟨fm, e, vc', host⟩ r' dt u ∧
      (step ⟨fm, e, vc, host⟩ r dt u).1.field = (step ⟨fm, e, vc', host⟩ r' dt u).1.field ∧
      (step ⟨fm, e, vc, host⟩ r dt u).1.mode = (step ⟨fm, e, vc', host⟩ r' dt u).1.mode ∧
      (step ⟨fm, e, vc, host⟩ r dt u).1.wave = (step ⟨fm, e, vc', host⟩ r' dt u).1.wave ∧
      (step ⟨fm, e, vc, host⟩ r dt u).2.fieldState =
        (step ⟨fm, e, vc', host⟩ r' dt u).2.fieldState ∧
      (step ⟨fm, e, vc, host⟩ r dt u).2.time = (step ⟨fm, e, vc', host⟩ r' dt u).2.time ∧
      (step ⟨fm, e, vc, host⟩ r dt u).2.jitter = (step ⟨fm, e, vc', host⟩ r' dt u).2.jitter ∧
      (step ⟨fm, e, vc, host⟩ r dt u).2.preset = (step ⟨fm, e, vc', host⟩ r' dt u).2.preset ∧
      (step ⟨fm, e, vc, host⟩ r dt u).2.synth = (step ⟨fm, e, vc', host⟩ r' dt u).2.synth := by
  have hT : stepTime r dt = stepTime r' dt := by unfold stepTime; rw [hTime]
  have hE : stepEntropy ⟨fm, e, vc, host⟩ r = stepEntropy ⟨fm, e, vc', host⟩ r' := by
    unfold stepEntropy; rw [hSynth]
  have hJ : stepJitter ⟨fm, e, vc, host⟩ r u = stepJitter ⟨fm, e, vc', host⟩ r' u := by
    unfold stepJitter; rw [hJitter, hField]
  have hC : stepControl ⟨fm, e, vc, host⟩ r dt u = stepControl ⟨fm, e, vc', host⟩ r' dt u := by
    unfold stepControl; rw [hT, hE, hJ]
  have hS : (step ⟨fm, e, vc, host⟩ r dt u).2.synth =
      (step ⟨fm, e, vc', host⟩ r' dt u).2.synth := by
    show pushValue e r.synth _ = pushValue e r'.synth _
    rw [hSynth, hC]
  have hW : (step ⟨fm, e, vc, host⟩ r dt u).1.wave =
      (step ⟨fm, e, vc', host⟩ r' dt u).1.wave := by
    show readState e (step ⟨fm, e, vc, host⟩ r dt u).2.synth =
      readState e (step ⟨fm, e, vc', host⟩ r' dt u).2.synth
    rw [hS]
  have hF : (step ⟨fm, e, vc, host⟩ r dt u).2.fieldState =
      (step ⟨fm, e, vc', host⟩ r' dt u).2.fieldState := by
    show fm.applyWaveObservation r.fieldState
        (observationOf e (readState e (step ⟨fm, e, vc, host⟩ r dt u).2.synth)
          (stepEntropy ⟨fm, e, vc, host⟩ r)) =
      fm.applyWaveObservation r'.fieldState
        (observationOf e (readState e (step ⟨fm, e, vc', host⟩ r' dt u).2.synth)
          (stepEntropy ⟨fm, e, vc', host⟩ r'))
    rw [hS, hE, hField]
  refine ⟨hC, hF, ?_, hW, hF, hT, hJ, hPreset, hS⟩
  show fm.fieldToReceiverMode r.fieldState = fm.fieldToReceiverMode r'.fieldState
  rw [hField]

/-- C10, evaluated: a Receiver constructed with a canvas over the recording
visualizer against one constructed without a canvas and without any visualizer
class; the first one's visualizer does record the tick. -/
theorem c10_visualizer_non_interference_witness :
    (step visualDeps (construct visualDeps canvasConfig) none (1 / 4)).2.visualizer =
        some [.fin (1 / 2), .fin (1 / 2), .fin (1 / 2)] ∧
      (step engineDeps (construct engineDeps audioConfig) none (1 / 4)).2.visualizer = none ∧
      (step visualDeps (construct visualDeps canvasConfig) none (1 / 4)).2.fieldState =
        (step engineDeps (construct engineDeps audioConfig) none (1 / 4)).2.fieldState ∧
      (step visualDeps (construct visualDeps canvasConfig) none (1 / 4)).2.synth =
        (step engineDeps (construct engineDeps audioConfig) none (1 / 4)).2.synth := by
  have h := c10_visualizer_non_interference steadyField
    (paramEngine allCapabilities (fun _ => .num (.fin (1 / 2)))) quietHost
    (logVisualizer EngineParams) (noVisualizer EngineParams)
    (construct visualDeps canvasConfig) (construct engineDeps audioConfig) none (1 / 4)
    rfl rfl rfl rfl rfl
  refine ⟨?_, rfl, h.2.2.2.2.1, h.2.2.2.2.2.2.2.2⟩
  show driveVisualizer visualDeps.visualizer (construct visualDeps canvasConfig).visualizer
    (stepEntropy visualDeps (construct visualDeps canvasConfig))
    (construct visualDeps canvasConfig).preset
    (plasticityOf visualDeps.field (construct visualDeps canvasConfig).fieldState) = _
  simp only [driveVisualizer, callViz, refinementOf, stepEntropy, entropyOf, readState,
    plasticityOf, construct, initVisualizer, visualDeps, logVisualizer, steadyField,
    paramEngine, allCapabilities, canvasConfig, applyPresetToSynth, Option.map, Option.bind,
    Option.getD, clamp01, JSNum.max, JSNum.min, if_true]
  norm_num

end Feedback

/-! ## Construction, preset lifecycle and attachment -/

section Lifecycle

variable {F M σ W ν : Type}

theorem construct_headless (d : Deps F M σ W ν) (cfg : Config)
    (hCtx : cfg.audioContext = none) (hAmbient : d.host.windowAudio = none) :
    (construct d cfg).synth = none ∧ (construct d cfg).visualizer = none := by
  unfold construct
  simp only [hCtx, hAmbient, Option.map, applyPresetToSynth]
  cases cfg.initialPreset <;> cases d.field.fieldToWavePreset _ <;> cases cfg.canvas <;>
    exact ⟨rfl, rfl⟩

theorem construct_fieldState_of_seed (d : Deps F M σ W ν) (cfg : Config)
    (hSeed : cfg.seed ≠ .undefined) :
    (construct d cfg).fieldState = d.field.initFieldState cfg.seed := by
  have h : (construct d cfg).fieldState = d.field.initFieldState
      (match cfg.seed with
        | .undefined => JSVal.num (.fin 0)
        | v => v) := by
    unfold construct
    dsimp only
    split <;> rfl
  rw [h]
  generalize cfg.seed = v at hSeed
  cases v <;> first | rfl | exact absurd rfl hSeed

theorem construct_preset (d : Deps F M σ W ν) (cfg : Config) :
    (construct d cfg).preset =
      match cfg.initialPreset with
      | some p => some p
      | none => d.field.fieldToWavePreset (construct d cfg).fieldState := by
  unfold construct
  dsimp only
  split <;> rfl

/-- C11: for every supplied seed, a Receiver constructed without an audio handle
on a host without ambient audio has time 0 and jitter 0 and no engine, and its
`getSnapshot` returns `field = initFieldState(seed)`,
`mode = fieldToReceiverMode(initFieldState(seed))` (so every property of the
classifier's output, such as a string band, holds of the returned mode) and
`wave = null`. -/
theorem c11_fresh_snapshot (d : Deps F M σ W ν) (cfg : Config)
    (hSeed : cfg.seed ≠ .undefined)
    (hCtx : cfg.audioContext = none) (hAmbient : d.host.windowAudio = none) :
    (construct d cfg).time = .fin 0 ∧
      (construct d cfg).jitter = .fin 0 ∧
      (construct d cfg).synth = none ∧
      (getSnapshot d (construct d cfg)).1.field = d.field.initFieldState cfg.seed ∧
      (getSnapshot d (construct d cfg)).1.mode =
        d.field.fieldToReceiverMode (d.field.initFieldState cfg.seed) ∧
      (∀ P : M → Prop, P (d.field.fieldToReceiverMode (d.field.initFieldState cfg.seed)) →
        P (getSnapshot d (construct d cfg)).1.mode) ∧
      (getSnapshot d (construct d cfg)).1.wave = none := by
  have hF := construct_fieldState_of_seed d cfg hSeed
  have hS := (construct_headless d cfg hCtx hAmbient).1
  have hMode : (getSnapshot d (construct d cfg)).1.mode =
      d.field.fieldToReceiverMode (d.field.initFieldState cfg.seed) := by
    show d.field.fieldToReceiverMode (construct d cfg).fieldState = _
    rw [hF]
  refine ⟨construct_time d cfg, construct_jitter d cfg, hS, hF, hMode, ?_, ?_⟩
  · intro P hP
    rw [hMode]
    exact hP
  · show readState d.engine (construct d cfg).synth = none
    rw [hS]
    rfl

/-- C11, evaluated: the initial snapshot of the integration test (seed 42). -/
theorem c11_fresh_snapshot_witness :
    (construct steadyDeps (seedConfig (.num (.fin 42)))).time = .fin 0 ∧
      (getSnapshot steadyDeps (construct steadyDeps (seedConfig (.num (.fin 42))))).1.field =
        some ⟨.str "rut", .num (.fin (1 / 2)), .num (.fin (1 / 2))⟩ ∧
      (getSnapshot steadyDeps (construct steadyDeps (seedConfig (.num (.fin 42))))).1.wave =
        none :=
  have h := c11_fresh_snapshot steadyDeps (seedConfig (.num (.fin 42)))
    (by simp [seedConfig]) rfl rfl
  ⟨h.1, h.2.2.2.1, h.2.2.2.2.2.2⟩

/-- C12: the stored preset is the supplied `initialPreset`, or
`fieldToWavePreset` of the initial Field State when none (or a falsy one) is
supplied, at construction; after `setPreset(p)` with a Preset `p` it is `p` (a
falsy argument leaves it alone); after `applySignal(s)` it is
`fieldToWavePreset` of the new Field State whatever was stored before; `step`,
`getSnapshot` and `attachCanvas` do not change it. -/
theorem c12_preset_lifecycle (d : Deps F M σ W ν) (cfg : Config) (r : Receiver F σ ν)
    (p : Preset) (s : Signal) (dt : Option JSNum) (u : ℚ) (c : Option Canvas) :
    (∀ q, cfg.initialPreset = some q → (construct d cfg).preset = some q) ∧
      (cfg.initialPreset = none →
        (construct d cfg).preset = d.field.fieldToWavePreset (construct d cfg).fieldState) ∧
      (setPreset d r (some p)).preset = some p ∧
      (setPreset d r none).preset = r.preset ∧
      (applySignal d r s).preset =
        d.field.fieldToWavePreset (d.field.applySignal r.fieldState s) ∧
      (applySignal d r s).preset = d.field.fieldToWavePreset (applySignal d r s).fieldState ∧
      (step d r dt u).2.preset = r.preset ∧
      (getSnapshot d r).2.preset = r.preset ∧
      (attachCanvas d r c).preset = r.preset := by
  refine ⟨?_, ?_, rfl, rfl, rfl, rfl, rfl, rfl, ?_⟩
  · intro q hq
    rw [construct_preset, hq]
  · intro hq
    rw [construct_preset, hq]
  · unfold attachCanvas
    cases r.synth <;> rfl

/-- C12, evaluated: an `initialPreset` override is stored at construction and
replaced by the field's preset on the first signal. -/
theorem c12_preset_lifecycle_witness :
    (construct engineDeps
        { seed := .num (.fin 42), audioContext := some ⟨0⟩, canvas := none,
          initialPreset := some ⟨.num (.fin 1), .undefined, .undefined, .undefined, .undefined⟩,
          name := none }).preset =
      some ⟨.num (.fin 1), .undefined, .undefined, .undefined, .undefined⟩ :=
  (c12_preset_lifecycle engineDeps
    { seed := .num (.fin 42), audioContext := some ⟨0⟩, canvas := none,
      initialPreset := some ⟨.num (.fin 1), .undefined, .undefined, .undefined, .undefined⟩,
      name := none }
    (construct engineDeps audioConfig)
    ⟨.undefined, .undefined, .undefined, .undefined, .undefined⟩ ⟨"noop"⟩ none 0 none).1
    _ rfl

end Lifecycle

/-! ## Attaching a rendering surface -/

section Attachment

variable {F M σ W ν : Type}

theorem initVisualizer_visualizer (d : Deps F M σ W ν) (r : Receiver F σ ν)
    (c : Option Canvas) :
    (initVisualizer d r c).visualizer =
      (d.visualizer.construct c).bind fun v =>
        (bindSynth d.visualizer r.synth v).bind fun v1 => startVisualizer d.visualizer v1 := by
  unfold initVisualizer bindSynth startVisualizer
  dsimp only
  cases d.visualizer.construct c <;> cases r.synth <;> cases d.visualizer.setSynth <;>
    cases d.visualizer.start <;> rfl

/-- C13 (as stated, refuted): on a headless Receiver `attachCanvas` returns at
once; no Visualizer is attached although the construction, `setSynth` and
`start` of the Visualizer for that surface would all succeed. -/
theorem c13_headless_attach_ignored :
    (construct visualDeps (seedConfig (.num (.fin 42)))).synth = none ∧
      visualDeps.visualizer.construct (some ⟨0⟩) = some [] ∧
      startVisualizer visualDeps.visualizer ([] : List JSNum) = some [] ∧
      (attachCanvas visualDeps (construct visualDeps (seedConfig (.num (.fin 42))))
        (some ⟨0⟩)).visualizer = none :=
  ⟨rfl, rfl, rfl, rfl⟩

/-- C13 (amended): `attachCanvas` always returns.  On a Receiver with an engine
it stores the surface and the Visualizer becomes the newly constructed one,
whatever was attached before, when the construction, the guarded `setSynth` and
the guarded `start` all succeed, and becomes null when one of them throws, even
if a Visualizer was attached before; nothing else changes.  On a Receiver
without an engine `attachCanvas` changes nothing. -/
theorem c13_attachCanvas (d : Deps F M σ W ν) (r : Receiver F σ ν) (c : Option Canvas) :
    (∀ s v v1 v2, r.synth = some s → d.visualizer.construct c = some v →
        bindSynth d.visualizer (some s) v = some v1 →
        startVisualizer d.visualizer v1 = some v2 →
        (attachCanvas d r c).visualizer = some v2) ∧
      (∀ s, r.synth = some s → d.visualizer.construct c = none →
        (attachCanvas d r c).visualizer = none) ∧
      (∀ s v, r.synth = some s → d.visualizer.construct c = some v →
        bindSynth d.visualizer (some s) v = none →
        (attachCanvas d r c).visualizer = none) ∧
      (∀ s v v1, r.synth = some s → d.visualizer.construct c = some v →
        bindSynth d.visualizer (some s) v = some v1 →
        startVisualizer d.visualizer v1 = none →
        (attachCanvas d r c).visualizer = none) ∧
      (∀ s, r.synth = some s → (attachCanvas d r c).canvas = c) ∧
      (r.synth = none → attachCanvas d r c = r) ∧
      (attachCanvas d r c).fieldState = r.fieldState ∧
      (attachCanvas d r c).synth = r.synth ∧
      (attachCanvas d r c).preset = r.preset ∧
      (attachCanvas d r c).time = r.time ∧
      (attachCanvas d r c).jitter = r.jitter := by
  have hAttach : ∀ s, r.synth = some s → attachCanvas d r c = initVisualizer d r c := by
    intro s hs
    unfold attachCanvas
    rw [hs]
  have hNone : r.synth = none → attachCanvas d r c = r := by
    intro hs
    unfold attachCanvas
    rw [hs]
  refine ⟨?_, ?_, ?_, ?_, ?_, hNone, ?_, ?_, ?_, ?_, ?_⟩
  · intro s v v1 v2 hs hv hv1 hv2
    rw [hAttach s hs, initVisualizer_visualizer, hs, hv]
    simp only [Option.bind, hv1, hv2]
  · intro s hs hv
    rw [hAttach s hs, initVisualizer_visualizer, hv]
    rfl
  · intro s v hs hv hv1
    rw [hAttach s hs, initVisualizer_visualizer, hs, hv]
    simp only [Option.bind, hv1]
  · intro s v v1 hs hv hv1 hv2
    rw [hAttach s hs, initVisualizer_visualizer, hs, hv]
    simp only [Option.bind, hv1, hv2]
  · intro s hs
    rw [hAttach s hs]
    rfl
  · exact (attachCanvas_frame d r c).2.2
  · cases h : r.synth with
    | none => rw [hNone h]; exact h
    | some s => rw [hAttach s h]; exact h
  · cases h : r.synth with
    | none => rw [hNone h]
    | some s => rw [hAttach s h]; rfl
  · exact (attachCanvas_frame d r c).2.1
  · exact (attachCanvas_frame d r c).1

/-- C13 (amended), evaluated: a Receiver constructed with the surface 0 has a
Visualizer; attaching the surface 1, which the Visualizer's constructor
rejects, leaves it without one. -/
theorem c13_attachCanvas_witness :
    (construct pickyDeps canvasConfig).visualizer = some [] ∧
      (attachCanvas pickyDeps (construct pickyDeps canvasConfig) (some ⟨1⟩)).visualizer =
        none :=
  ⟨rfl,
    (c13_attachCanvas pickyDeps (construct pickyDeps canvasConfig) (some ⟨1⟩)).2.1
      ⟨.fin 0, .fin 0, .fin 0, .fin 0, .fin 0⟩ rfl (by decide)⟩

end Attachment

/-! ## The update rules of a tick -/

section TickRules

variable {F M σ W ν : Type}

theorem clamp01_fin (x : ℚ) : clamp01 (.fin x) = .fin (Max.max 0 (Min.min 1 x)) := rfl

theorem rawJitter_fin (j p u : ℚ) :
    rawJitter (.fin j) (.fin p) u =
      .fin (j * (98 / 100) + (u - 1 / 2) * (1 / 100 + 6 / 100 * p)) := by
  show JSNum.fin (j * (98 / 100) + (u + -(1 / 2)) * (1 / 100 + 6 / 100 * p)) = _
  rw [sub_eq_add_neg]

theorem nextJitter_eq_clamp (jitter plasticity : JSNum) (u : ℚ) :
    nextJitter jitter plasticity u = clampSym (rawJitter jitter plasticity u) JITTER_MAX := rfl

theorem nextJitter_fin (j p u : ℚ) :
    nextJitter (.fin j) (.fin p) u =
      .fin (Max.max (-(1 / 10))
        (Min.min (1 / 10) (j * (98 / 100) + (u - 1 / 2) * (1 / 100 + 6 / 100 * p)))) := by
  rw [nextJitter_eq_clamp, rawJitter_fin]
  rfl

theorem plasticityOf_num (fm : FieldModule F M) (f : F) (x : JSNum)
    (h : ((fm.persona f).getD Persona.empty).plasticity = .num x) :
    plasticityOf fm f = clamp01 x := by
  unfold plasticityOf
  dsimp only
  rw [h]

theorem plasticityOf_default (fm : FieldModule F M) (f : F)
    (h : ∀ x, ((fm.persona f).getD Persona.empty).plasticity ≠ .num x) :
    plasticityOf fm f = .fin (1 / 2) := by
  unfold plasticityOf
  dsimp only
  generalize ((fm.persona f).getD Persona.empty).plasticity = v at h
  cases v with
  | num x => exact absurd rfl (h x)
  | undefined => rfl
  | null => rfl
  | bool b => rfl
  | str s => rfl

/-- C14: `step` sets `jitter' = clampSym(jitter * 0.98 + (u - 0.5) * (0.01 + 0.06 *
plasticity), 0.1)`; on finite numbers this is
`max(-0.1, min(0.1, jitter * 0.98 + (u - 0.5) * (0.01 + 0.06 * plasticity)))`.
The plasticity is `clamp01(persona.plasticity)` when that attribute is a number
(for a finite `x`, `max(0, min(1, x))`) and 0.5 when the persona or the
attribute is absent or not a number. -/
theorem c14_jitter_update (d : Deps F M σ W ν) (r : Receiver F σ ν) (dt : Option JSNum)
    (u : ℚ) :
    (step d r dt u).2.jitter =
        clampSym (rawJitter r.jitter (plasticityOf d.field r.fieldState) u) JITTER_MAX ∧
      (∀ j p : ℚ, r.jitter = .fin j → plasticityOf d.field r.fieldState = .fin p →
        (step d r dt u).2.jitter =
          .fin (Max.max (-(1 / 10))
            (Min.min (1 / 10) (j * (98 / 100) + (u - 1 / 2) * (1 / 100 + 6 / 100 * p))))) ∧
      (∀ x : JSNum, ((d.field.persona r.fieldState).getD Persona.empty).plasticity = .num x →
        plasticityOf d.field r.fieldState = clamp01 x) ∧
      (∀ x : ℚ,
        ((d.field.persona r.fieldState).getD Persona.empty).plasticity = .num (.fin x) →
        plasticityOf d.field r.fieldState = .fin (Max.max 0 (Min.min 1 x))) ∧
      ((∀ x, ((d.field.persona r.fieldState).getD Persona.empty).plasticity ≠ .num x) →
        plasticityOf d.field r.fieldState = .fin (1 / 2)) ∧
      (d.field.persona r.fieldState = none →
        plasticityOf d.field r.fieldState = .fin (1 / 2)) := by
  refine ⟨rfl, ?_, plasticityOf_num d.field _, ?_, plasticityOf_default d.field _, ?_⟩
  · intro j p hj hp
    show nextJitter r.jitter (plasticityOf d.field r.fieldState) u = _
    rw [hj, hp, nextJitter_fin]
  · intro x hx
    rw [plasticityOf_num d.field _ _ hx, clamp01_fin]
  · intro hp
    apply plasticityOf_default
    intro x
    rw [hp]
    simp [Persona.empty]

/-- C14, evaluated: the first tick of the integration test's Receiver
(plasticity 0.5) with the draw 0.75 moves the jitter from 0 to 0.01. -/
theorem c14_jitter_update_witness :
    (step steadyDeps (construct steadyDeps (seedConfig (.num (.fin 42))))
        (some (.fin (1 / 10))) (3 / 4)).2.jitter =
      .fin (Max.max (-(1 / 10))
        (Min.min (1 / 10) (0 * (98 / 100) + (3 / 4 - 1 / 2) * (1 / 100 + 6 / 100 * (1 / 2))))) :=
  (c14_jitter_update steadyDeps (construct steadyDeps (seedConfig (.num (.fin 42))))
    (some (.fin (1 / 10))) (3 / 4)).2.1 0 (1 / 2) rfl
    (by
      rw [plasticityOf_num steadyDeps.field
        (construct steadyDeps (seedConfig (.num (.fin 42)))).fieldState (.fin (1 / 2)) rfl,
        clamp01_fin]
      norm_num)

end TickRules

/-! ## The control signal and the tick output -/

section ControlRule

variable {F M σ W ν : Type}

theorem stepEntropy_num (d : Deps F M σ W ν) (r : Receiver F σ ν) (w : W) (x : JSNum)
    (hw : readState d.engine r.synth = some w) (hx : d.engine.richnessNorm w = .num x) :
    stepEntropy d r = clamp01 x := by
  unfold stepEntropy entropyOf
  rw [hw]
  dsimp only
  rw [hx]

theorem stepEntropy_default (d : Deps F M σ W ν) (r : Receiver F σ ν) (w : W)
    (hw : readState d.engine r.synth = some w) (hx : ∀ x, d.engine.richnessNorm w ≠ .num x) :
    stepEntropy d r = .fin 0 := by
  unfold stepEntropy entropyOf
  rw [hw]
  dsimp only
  generalize d.engine.richnessNorm w = v at hx
  cases v with
  | num x => exact absurd rfl (hx x)
  | undefined => rfl
  | null => rfl
  | bool b => rfl
  | str s => rfl

theorem stepEntropy_none (d : Deps F M σ W ν) (r : Receiver F σ ν)
    (hw : readState d.engine r.synth = none) : stepEntropy d r = .fin 0 := by
  unfold stepEntropy entropyOf
  rw [hw]

theorem readState_none (e : Engine σ W) : readState e none = none := rfl

theorem controlValue_fin (h : Host) (a e j : ℚ) :
    controlValue h (.fin a) (.fin e) (.fin j) =
      .fin (Max.max 0 (Min.min 1
        (1 / 2 + 1 / 2 *
          h.sin (a * (3141592653589793 / 1000000000000000) * (1 / 2) * (1 / 2 + e)) + j))) := by
  show JSNum.fin (Max.max 0 (Min.min 1
    (1 / 2 + 1 / 2 *
      h.sin (a * (3141592653589793 / 1000000000000000) * (1 / 2 * (1 / 2 + e))) + j))) = _
  rw [mul_assoc (a * (3141592653589793 / 1000000000000000)) (1 / 2) (1 / 2 + e)]

/-- C15: the value pushed to the engine is
`t = clamp01(0.5 + 0.5 * sin(time' * pi * 0.5 * (0.5 + entropy)) + jitter')` with
`time' = time + dt` the advanced time, `jitter'` the updated jitter and `entropy`
the pre-push richness clamped by `clamp01`, or 0 when there is no engine, no
state or no numeric richness; on finite numbers `t` is
`max(0, min(1, 0.5 + 0.5 * sin(time' * pi * 0.5 * (0.5 + entropy)) + jitter'))`. -/
theorem c15_control_rule (d : Deps F M σ W ν) (r : Receiver F σ ν) (dt : Option JSNum)
    (u : ℚ) :
    stepControl d r dt u =
        clamp01 (JSNum.add
          (JSNum.add (.fin (1 / 2))
            (JSNum.mul (.fin (1 / 2))
              (mathSin d.host.sin
                (JSNum.mul (JSNum.mul (stepTime r dt) MATH_PI)
                  (JSNum.mul (.fin (1 / 2)) (JSNum.add (.fin (1 / 2)) (stepEntropy d r)))))))
          (stepJitter d r u)) ∧
      (∀ a e j : ℚ, stepTime r dt = .fin a → stepEntropy d r = .fin e →
        stepJitter d r u = .fin j →
        stepControl d r dt u =
          .fin (Max.max 0 (Min.min 1
            (1 / 2 + 1 / 2 *
              d.host.sin (a * (3141592653589793 / 1000000000000000) * (1 / 2) * (1 / 2 + e))
              + j)))) ∧
      stepTime r dt = JSNum.add r.time (dt.getD STEP_DEFAULT_DT) ∧
      (step d r dt u).2.time = stepTime r dt ∧
      (step d r dt u).2.jitter = stepJitter d r u ∧
      (step d r dt u).2.synth = pushValue d.engine r.synth (stepControl d r dt u) ∧
      (∀ s f, r.synth = some s → d.engine.setValue = some f →
        (step d r dt u).2.synth = some (f s (stepControl d r dt u))) ∧
      (∀ w x, readState d.engine r.synth = some w → d.engine.richnessNorm w = .num x →
        stepEntropy d r = clamp01 x) ∧
      (∀ w, readState d.engine r.synth = some w → (∀ x, d.engine.richnessNorm w ≠ .num x) →
        stepEntropy d r = .fin 0) ∧
      (readState d.engine r.synth = none → stepEntropy d r = .fin 0) ∧
      (r.synth = none → stepEntropy d r = .fin 0) := by
  refine ⟨rfl, ?_, rfl, rfl, rfl, rfl, ?_, stepEntropy_num d r, stepEntropy_default d r,
    stepEntropy_none d r, ?_⟩
  · intro a e j ha he hj
    unfold stepControl
    rw [ha, he, hj, controlValue_fin]
  · intro s f hs hf
    show pushValue d.engine r.synth (stepControl d r dt u) = _
    unfold pushValue
    rw [hs, hf]
  · intro hs
    apply stepEntropy_none
    rw [hs]
    rfl

/-- C15, evaluated: the first default tick of the sample engine world with the
draw 0.5 (entropy 0.5, jitter 0, flat sine) pushes 0.5. -/
theorem c15_control_rule_witness :
    stepControl engineDeps (construct engineDeps audioConfig) none (1 / 2) =
      .fin (Max.max 0 (Min.min 1
        (1 / 2 + 1 / 2 *
          engineDeps.host.sin
            ((0 + 16 / 1000) * (3141592653589793 / 1000000000000000) * (1 / 2) *
              (1 / 2 + 1 / 2)) + 0))) :=
  (c15_control_rule engineDeps (construct engineDeps audioConfig) none (1 / 2)).2.1
    (0 + 16 / 1000) (1 / 2) 0 rfl
    (by
      rw [stepEntropy_num engineDeps (construct engineDeps audioConfig)
        ⟨.fin 0, .fin 0, .fin 0, .fin 0, .fin 0⟩ (.fin (1 / 2)) rfl rfl, clamp01_fin]
      norm_num)
    (by
      show nextJitter (.fin 0) (plasticityOf engineDeps.field
        (construct engineDeps audioConfig).fieldState) (1 / 2) = _
      rw [plasticityOf_num engineDeps.field (construct engineDeps audioConfig).fieldState
        (.fin (1 / 2)) rfl, clamp01_fin, nextJitter_fin]
      norm_num)

/-- C16 (as stated, refuted): a Receiver whose engine has no `getState` method
returns `wave: null` from `step` although it has an engine. -/
theorem c16_step_wave_null_with_engine :
    (step seedDeps (construct seedDeps audioConfig) none (1 / 2)).2.synth = some () ∧
      (step seedDeps (construct seedDeps audioConfig) none (1 / 2)).1.wave = none :=
  ⟨rfl, rfl⟩

/-- C16 (amended): `step` returns `field` the new (post-fold) Field State,
`mode` the classifier applied to the Field State before the fold, which is the
mode `getSnapshot` returns just before the step, and `wave` the result of
`getState()` on the engine after the control value was pushed, or null when
there is no engine or the engine has no `getState` method. -/
theorem c16_tick_output (d : Deps F M σ W ν) (r : Receiver F σ ν) (dt : Option JSNum)
    (u : ℚ) :
    (step d r dt u).1.field = (step d r dt u).2.fieldState ∧
      (step d r dt u).1.mode = d.field.fieldToReceiverMode r.fieldState ∧
      (step d r dt u).1.mode = (getSnapshot d r).1.mode ∧
      (step d r dt u).2.synth = pushValue d.engine r.synth (stepControl d r dt u) ∧
      (∀ s g, (step d r dt u).2.synth = some s → d.engine.getState = some g →
        (step d r dt u).1.wave = g s) ∧
      (r.synth = none → (step d r dt u).1.wave = none) ∧
      (d.engine.getState = none → (step d r dt u).1.wave = none) := by
  have hWave : (step d r dt u).1.wave = readState d.engine (step d r dt u).2.synth := rfl
  refine ⟨rfl, rfl, rfl, rfl, ?_, ?_, ?_⟩
  · intro s g hs hg
    rw [hWave, hs]
    unfold readState
    rw [hg]
  · intro hs
    have h2 : (step d r dt u).2.synth = none := by
      show pushValue d.engine r.synth _ = none
      rw [hs]
      rfl
    rw [hWave, h2]
    rfl
  · intro hg
    rw [hWave]
    unfold readState
    rw [hg]
    cases (step d r dt u).2.synth <;> rfl

/-- C16 (amended), evaluated: the sample engine's state after the first tick
with the draw 0.5 carries the pushed control value 0.5. -/
theorem c16_tick_output_witness :
    (step logDeps (construct logDeps audioConfig) none (1 / 2)).1.wave =
      some ⟨.fin 0, .fin 0, .fin 0, .fin 0, .fin (1 / 2)⟩ :=
  (c16_tick_output logDeps (construct logDeps audioConfig) none (1 / 2)).2.2.2.2.1
    ⟨.fin 0, .fin 0, .fin 0, .fin 0, .fin (1 / 2)⟩ (fun s => some s) step_synth_logDeps rfl

end ControlRule

/-! ## Tightness of the jitter bound -/

section Tightness

theorem seed_step (r : Receiver (Option Persona) Unit Unit) (a b : JSVal) (j u : ℚ)
    (dt : Option JSNum) (hf : r.fieldState = some ⟨a, b, .num (.fin 1)⟩)
    (hj : r.jitter = .fin j) :
    (step seedDeps r dt u).2.fieldState = some ⟨a, b, .num (.fin 1)⟩ ∧
      plasticityOf seedDeps.field r.fieldState = .fin 1 ∧
      (step seedDeps r dt u).2.jitter =
        .fin (Max.max (-(1 / 10)) (Min.min (1 / 10) (j * (98 / 100) + (u - 1 / 2) * (7 / 100)))) := by
  have hp : plasticityOf seedDeps.field r.fieldState = .fin 1 := by
    rw [plasticityOf_num seedDeps.field r.fieldState (.fin 1) (by rw [hf]; rfl), clamp01_fin]
    norm_num
  refine ⟨hf, hp, ?_⟩
  show nextJitter r.jitter (plasticityOf seedDeps.field r.fieldState) u = _
  rw [hj, hp, nextJitter_fin]
  norm_num

/-- C17: the bound is reached and it is the clamp that enforces it.  With
plasticity 1 and the draw 0.99 on every tick the jitter goes 0, 0.0343,
0.067914, and on the third tick the unclamped update is 0.10085572 > 0.1 and
the jitter becomes exactly 0.1; with the draw 0 it goes 0, -0.035, -0.0693, the
unclamped update is -0.102914 and the jitter becomes exactly -0.1. -/
theorem c17_jitter_bound_tight :
    plasticityOf seedDeps.field (construct seedDeps (seedConfig (.num (.fin 1)))).fieldState =
        .fin 1 ∧
      (construct seedDeps (seedConfig (.num (.fin 1)))).jitter = .fin 0 ∧
      ((0 : ℚ) ≤ 99 / 100 ∧ (99 / 100 : ℚ) < 1) ∧
      (run seedDeps (construct seedDeps (seedConfig (.num (.fin 1))))
        [Call.step none (99 / 100), Call.step none (99 / 100)]).jitter =
          .fin (67914 / 1000000) ∧
      rawJitter (.fin (67914 / 1000000)) (.fin 1) (99 / 100) = .fin (10085572 / 100000000) ∧
      ¬ JitterBounded (rawJitter (.fin (67914 / 1000000)) (.fin 1) (99 / 100)) ∧
      (run seedDeps (construct seedDeps (seedConfig (.num (.fin 1))))
        [Call.step none (99 / 100), Call.step none (99 / 100),
          Call.step none (99 / 100)]).jitter = .fin (1 / 10) ∧
      (run seedDeps (construct seedDeps (seedConfig (.num (.fin 1))))
        [Call.step none 0, Call.step none 0]).jitter = .fin (-(693 / 10000)) ∧
      rawJitter (.fin (-(693 / 10000))) (.fin 1) 0 = .fin (-(102914 / 1000000)) ∧
      ¬ JitterBounded (rawJitter (.fin (-(693 / 10000))) (.fin 1) 0) ∧
      (run seedDeps (construct seedDeps (seedConfig (.num (.fin 1))))
        [Call.step none 0, Call.step none 0, Call.step none 0]).jitter = .fin (-(1 / 10)) := by
  have hf0 : (construct seedDeps (seedConfig (.num (.fin 1)))).fieldState =
      some ⟨.str "rut", .num (.fin (1 / 2)), .num (.fin 1)⟩ := rfl
  have hj0 : (construct seedDeps (seedConfig (.num (.fin 1)))).jitter = .fin 0 := rfl
  -- the upward run
  obtain ⟨hf1, hp0, hj1⟩ := seed_step _ _ _ 0 (99 / 100) none hf0 hj0
  obtain ⟨hf2, -, hj2⟩ := seed_step _ _ _ _ (99 / 100) none hf1 hj1
  obtain ⟨-, -, hj3⟩ := seed_step _ _ _ _ (99 / 100) none hf2 hj2
  -- the downward run
  obtain ⟨hg1, -, hk1⟩ := seed_step _ _ _ 0 0 none hf0 hj0
  obtain ⟨hg2, -, hk2⟩ := seed_step _ _ _ _ 0 none hg1 hk1
  obtain ⟨-, -, hk3⟩ := seed_step _ _ _ _ 0 none hg2 hk2
  have hRawUp : rawJitter (.fin (67914 / 1000000)) (.fin 1) (99 / 100) =
      .fin (10085572 / 100000000) := by
    rw [rawJitter_fin]
    norm_num
  have hRawDown : rawJitter (.fin (-(693 / 10000))) (.fin 1) 0 =
      .fin (-(102914 / 1000000)) := by
    rw [rawJitter_fin]
    norm_num
  refine ⟨hp0, hj0, ⟨by norm_num, by norm_num⟩, ?_, hRawUp, ?_, ?_, ?_, hRawDown, ?_, ?_⟩
  · show (step seedDeps (step seedDeps _ none (99 / 100)).2 none (99 / 100)).2.jitter = _
    rw [hj2]
    norm_num [max_def, min_def]
  · rw [hRawUp]
    show ¬ (|(10085572 / 100000000 : ℚ)| ≤ 1 / 10)
    rw [abs_of_pos (by norm_num)]
    norm_num
  · show (step seedDeps (step seedDeps (step seedDeps _ none (99 / 100)).2 none
      (99 / 100)).2 none (99 / 100)).2.jitter = _
    rw [hj3]
    norm_num [max_def, min_def]
  · show (step seedDeps (step seedDeps _ none 0).2 none 0).2.jitter = _
    rw [hk2]
    norm_num [max_def, min_def]
  · rw [hRawDown]
    show ¬ (|(-(102914 / 1000000) : ℚ)| ≤ 1 / 10)
    rw [abs_of_neg (by norm_num)]
    norm_num
  · show (step seedDeps (step seedDeps (step seedDeps _ none 0).2 none 0).2 none 0).2.jitter = _
    rw [hk3]
    norm_num [max_def, min_def]

end Tightness

/-! ## Headless field evolution -/

section HeadlessEvolution

variable {F M σ W ν : Type}

theorem step_field_without_engine (d : Deps F M σ W ν) (r : Receiver F σ ν)
    (hs : r.synth = none) (dt : Option JSNum) (u : ℚ) :
    (step d r dt u).2.synth = none ∧
      (step d r dt u).2.fieldState =
        d.field.applyWaveObservation r.fieldState ⟨.num (.fin 0)⟩ := by
  have h1 : (step d r dt u).2.synth = none := by
    show pushValue d.engine r.synth _ = none
    rw [hs]
    rfl
  refine ⟨h1, ?_⟩
  show d.field.applyWaveObservation r.fieldState
    (observationOf d.engine (readState d.engine (step d r dt u).2.synth)
      (stepEntropy d r)) = _
  rw [h1, stepEntropy_none d r (by rw [hs]; rfl)]
  rfl

/-- C19: on a Receiver with no synthesis engine the Field State after `n` steps
is the fold of the observation `{ entropy: 0 }` applied `n` times to the
starting Field State, whatever the `dt` values and the random draws. -/
theorem c19_headless_field_evolution (d : Deps F M σ W ν) (r : Receiver F σ ν)
    (hs : r.synth = none) (ticks : List (Option JSNum × ℚ)) :
    (run d r (ticks.map fun p => Call.step p.1 p.2)).fieldState =
      foldZero d.field ticks.length r.fieldState := by
  induction ticks generalizing r with
  | nil => rfl
  | cons p ps ih =>
    obtain ⟨h1, h2⟩ := step_field_without_engine d r hs p.1 p.2
    have h := ih (step d r p.1 p.2).2 h1
    rw [h2] at h
    exact h

/-- C19, evaluated: two runs of three steps over the logging field, with
different time deltas (one of them NaN) and different draws, both end in three
folded `{ entropy: 0 }` observations. -/
theorem c19_headless_field_evolution_witness :
    (run logDeps (construct logDeps (seedConfig (.num (.fin 42))))
        ([(none, 1 / 2), (some (.fin (1 / 10)), 0), (some .nan, 99 / 100)].map
          fun p => Call.step p.1 p.2)).fieldState =
        [⟨.num (.fin 0)⟩, ⟨.num (.fin 0)⟩, ⟨.num (.fin 0)⟩] ∧
      (run logDeps (construct logDeps (seedConfig (.num (.fin 42))))
        ([(some (.fin 5), 1 / 3), (some (.fin 7), 2 / 3), (none, 1 / 7)].map
          fun p => Call.step p.1 p.2)).fieldState =
        [⟨.num (.fin 0)⟩, ⟨.num (.fin 0)⟩, ⟨.num (.fin 0)⟩] :=
  ⟨c19_headless_field_evolution logDeps (construct logDeps (seedConfig (.num (.fin 42)))) rfl
      [(none, 1 / 2), (some (.fin (1 / 10)), 0), (some .nan, 99 / 100)],
    c19_headless_field_evolution logDeps (construct logDeps (seedConfig (.num (.fin 42)))) rfl
      [(some (.fin 5), 1 / 3), (some (.fin 7), 2 / 3), (none, 1 / 7)]⟩

end HeadlessEvolution

/-! ## Lemmas of the double layer -/

section DoubleLemmas

variable {fl : ℚ → JSNum}

theorem maxValue_large : (100 : ℚ) ≤ MAX_VALUE := by
  unfold MAX_VALUE
  norm_num

theorem tiny_le : (1 : ℚ) / 2 ^ 1075 ≤ 1 / 2 ^ 60 := by
  norm_num

theorem fl_fin (hfl : IEEERounding fl) {q B : ℚ} (hq : |q| ≤ B) (hB : B ≤ MAX_VALUE) :
    ∃ x, fl q = .fin x ∧ |x - q| ≤ B / 2 ^ 53 + 1 / 2 ^ 1075 := by
  obtain ⟨x, hx, he⟩ := hfl.error q (le_trans hq hB)
  refine ⟨x, hx, le_trans he ?_⟩
  have : |q| / 2 ^ 53 ≤ B / 2 ^ 53 := div_le_div_of_nonneg_right hq (by positivity)
  linarith

theorem fl_crude (hfl : IEEERounding fl) {q B : ℚ} (hq : |q| ≤ B) (hB : B ≤ MAX_VALUE) :
    ∃ x, fl q = .fin x ∧ |x| ≤ 2 * B + 1 := by
  obtain ⟨x, hx, he⟩ := fl_fin hfl hq hB
  refine ⟨x, hx, ?_⟩
  have hB0 : 0 ≤ B := le_trans (abs_nonneg q) hq
  have h1 : B / 2 ^ 53 ≤ B := div_le_self hB0 (by norm_num)
  have h2 : (1 : ℚ) / 2 ^ 1075 ≤ 1 := by norm_num
  have h3 : |x| ≤ |x - q| + |q| := by
    have := abs_add (x - q) q
    simpa using this
  linarith

theorem addD_fin_ne_nan (hfl : IEEERounding fl) {x : JSNum} (hx : x ≠ .nan) (b : ℚ) :
    addD fl x (.fin b) ≠ .nan := by
  cases x with
  | nan => exact absurd rfl hx
  | ninf => simp [addD]
  | pinf => simp [addD]
  | fin a => exact hfl.ne_nan _

theorem mulD_pos_ne_nan (hfl : IEEERounding fl) {x : JSNum} (hx : x ≠ .nan) {c : ℚ}
    (hc : 0 < c) : mulD fl x (.fin c) ≠ .nan := by
  cases x with
  | nan => exact absurd rfl hx
  | ninf => simp [mulD, JSNum.scaleInf, hc, ne_of_gt hc]
  | pinf => simp [mulD, JSNum.scaleInf, hc, ne_of_gt hc]
  | fin a => exact hfl.ne_nan _

theorem clampSym_fin_within {y : JSNum} (hy : y ≠ .nan) {m : ℚ} (hm : 0 ≤ m) :
    ∃ x, clampSym y (.fin m) = .fin x ∧ -m ≤ x ∧ x ≤ m := by
  cases y with
  | nan => exact absurd rfl hy
  | ninf => exact ⟨-m, rfl, le_refl _, by linarith⟩
  | pinf =>
    exact ⟨Max.max (-m) m, rfl, le_max_left _ _, max_le (by linarith) (le_refl _)⟩
  | fin a =>
    exact ⟨Max.max (-m) (Min.min m a), rfl, le_max_left _ _,
      max_le (by linarith) (min_le_left _ _)⟩

theorem le_fin_sandwich {z : JSNum} {lo hi : ℚ} (h1 : JSNum.le (.fin lo) z)
    (h2 : JSNum.le z (.fin hi)) : ∃ y, z = .fin y ∧ lo ≤ y ∧ y ≤ hi := by
  cases z with
  | nan => exact absurd h1 (by simp [JSNum.le])
  | ninf => exact absurd h1 (by simp [JSNum.le])
  | pinf => exact absurd h2 (by simp [JSNum.le])
  | fin y => exact ⟨y, rfl, h1, h2⟩

theorem abs_mul_le_mul {a b A B : ℚ} (ha : |a| ≤ A) (hb : |b| ≤ B) : |a * b| ≤ A * B := by
  rw [abs_mul]
  exact mul_le_mul ha hb (abs_nonneg _) (le_trans (abs_nonneg _) ha)

theorem jitterStepD_fin (hfl : IEEERounding fl) {p : JSNum} (hp : JSNum.Within 0 1 p) {u : ℚ}
    (hu0 : 0 ≤ u) (hu1 : u < 1) :
    ∃ st, mulD fl (subD fl (.fin u) (fl (1 / 2)))
      (addD fl (fl (1 / 100)) (mulD fl (fl (6 / 100)) p)) = .fin st := by
  obtain ⟨q, rfl, hq0, hq1⟩ := hp
  have hM := maxValue_large
  obtain ⟨s, hs, hsb⟩ := fl_crude hfl (q := u + -(1 / 2)) (B := 1)
    (by rw [abs_le]; constructor <;> linarith) (by linarith)
  obtain ⟨c6, hc6, hc6b⟩ := fl_crude hfl (q := 6 / 100) (B := 1)
    (by rw [abs_le]; constructor <;> norm_num) (by linarith)
  obtain ⟨c1, hc1, hc1b⟩ := fl_crude hfl (q := 1 / 100) (B := 1)
    (by rw [abs_le]; constructor <;> norm_num) (by linarith)
  have hq : |q| ≤ 1 := by rw [abs_le]; constructor <;> linarith
  have hprod : |c6 * q| ≤ 3 := by
    have := abs_mul_le_mul (A := 3) (B := 1) (a := c6) (b := q) (by linarith) hq
    linarith
  obtain ⟨m1, hm1, hm1b⟩ := fl_crude hfl hprod (by linarith)
  have hsum : |c1 + m1| ≤ 10 := le_trans (abs_add _ _) (by linarith)
  obtain ⟨w, hw, hwb⟩ := fl_crude hfl hsum (by linarith)
  have hsw : |s * w| ≤ 63 := by
    have := abs_mul_le_mul (A := 3) (B := 21) (a := s) (b := w) (by linarith) (by linarith)
    linarith
  obtain ⟨st, hst, -⟩ := fl_crude hfl hsw (by linarith)
  refine ⟨st, ?_⟩
  have e1 : subD fl (.fin u) (fl (1 / 2)) = .fin s := by
    rw [hfl.exact_half]
    exact hs
  have e2 : mulD fl (fl (6 / 100)) (.fin q) = .fin m1 := by
    rw [hc6]
    exact hm1
  have e3 : addD fl (fl (1 / 100)) (.fin m1) = .fin w := by
    rw [hc1]
    exact hw
  rw [e1, e2, e3]
  exact hst

theorem jitterMaxD (hfl : IEEERounding fl) :
    ∃ m, fl (1 / 10) = .fin m ∧ |m - 1 / 10| ≤ (1 / 10) / 2 ^ 53 + 1 / 2 ^ 1075 :=
  fl_fin hfl (q := 1 / 10) (B := 1 / 10) (by rw [abs_of_pos (by norm_num)])
    (by have := maxValue_large; linarith)

theorem decayD_pos (hfl : IEEERounding fl) : ∃ c, fl (98 / 100) = .fin c ∧ 0 < c := by
  obtain ⟨c, hc, he⟩ := fl_fin hfl (q := 98 / 100) (B := 1)
    (by rw [abs_of_pos (by norm_num)]; norm_num) (by have := maxValue_large; linarith)
  refine ⟨c, hc, ?_⟩
  have h1 := (abs_le.mp he).1
  have h2 : (1 : ℚ) / 2 ^ 53 + 1 / 2 ^ 1075 ≤ 1 / 2 := by norm_num
  linarith

theorem nextJitterD_within (hfl : IEEERounding fl) {j p : JSNum} (hj : j ≠ .nan)
    (hp : JSNum.Within 0 1 p) {u : ℚ} (hu0 : 0 ≤ u) (hu1 : u < 1) :
    ∃ m x, fl (1 / 10) = .fin m ∧ |m - 1 / 10| ≤ (1 / 10) / 2 ^ 53 + 1 / 2 ^ 1075 ∧
      nextJitterD fl j p u = .fin x ∧ -m ≤ x ∧ x ≤ m := by
  obtain ⟨st, hst⟩ := jitterStepD_fin hfl hp hu0 hu1
  obtain ⟨m, hm, hme⟩ := jitterMaxD hfl
  obtain ⟨c, hc, hc0⟩ := decayD_pos hfl
  have hm0 : 0 ≤ m := by
    have h1 := (abs_le.mp hme).1
    have h2 : ((1 : ℚ) / 10) / 2 ^ 53 + 1 / 2 ^ 1075 ≤ 1 / 10 := by norm_num
    linarith
  have hy : addD fl (mulD fl j (.fin c)) (.fin st) ≠ .nan :=
    addD_fin_ne_nan hfl (mulD_pos_ne_nan hfl hj hc0) st
  obtain ⟨x, hx, hx0, hx1⟩ := clampSym_fin_within hy hm0
  refine ⟨m, x, hm, hme, ?_, hx0, hx1⟩
  unfold nextJitterD
  simp only [hst, hc, hm]
  exact hx

theorem freqD_pos (hfl : IEEERounding fl) {e : JSNum} (he : JSNum.Within 0 1 e) :
    ∃ f, freqD fl e = .fin f ∧ 0 < f ∧ f ≤ 1 := by
  obtain ⟨q, rfl, hq0, hq1⟩ := he
  have hM := maxValue_large
  obtain ⟨y, hy, hye⟩ := fl_fin hfl (q := 1 / 2 + q) (B := 3 / 2)
    (by rw [abs_le]; constructor <;> linarith) (by linarith)
  have hs1 : ((3 : ℚ) / 2) / 2 ^ 53 + 1 / 2 ^ 1075 ≤ 1 / 100 := by norm_num
  have hy0 := (abs_le.mp hye).1
  have hy1 := (abs_le.mp hye).2
  obtain ⟨f, hf, hfe⟩ := fl_fin hfl (q := 1 / 2 * y) (B := 1)
    (by rw [abs_le]; constructor <;> linarith) (by linarith)
  have hs2 : (1 : ℚ) / 2 ^ 53 + 1 / 2 ^ 1075 ≤ 1 / 100 := by norm_num
  have hf0 := (abs_le.mp hfe).1
  have hf1 := (abs_le.mp hfe).2
  refine ⟨f, ?_, by linarith, by linarith⟩
  unfold freqD
  rw [hfl.exact_half]
  show mulD fl (.fin (1 / 2)) (fl (1 / 2 + q)) = _
  rw [hy]
  exact hf

theorem piD (hfl : IEEERounding fl) : ∃ pd, fl PI_LITERAL = .fin pd ∧ 3 ≤ pd ∧ pd ≤ 4 := by
  obtain ⟨pd, hpd, he⟩ := fl_fin hfl (q := PI_LITERAL) (B := 4)
    (by unfold PI_LITERAL; rw [abs_of_pos (by norm_num)]; norm_num)
    (by have := maxValue_large; linarith)
  have h0 := (abs_le.mp he).1
  have h1 := (abs_le.mp he).2
  have hs : (4 : ℚ) / 2 ^ 53 + 1 / 2 ^ 1075 ≤ 1 / 10 := by norm_num
  have hpi : (31 : ℚ) / 10 ≤ PI_LITERAL ∧ PI_LITERAL ≤ 32 / 10 := by
    unfold PI_LITERAL
    constructor <;> norm_num
  exact ⟨pd, hpd, by linarith [hpi.1], by linarith [hpi.2]⟩

theorem sineArgD_fin (hfl : IEEERounding fl) {time e : JSNum} (he : JSNum.Within 0 1 e)
    (hProd : ∃ x, mulD fl time (fl PI_LITERAL) = .fin x) :
    ∃ a, sineArgD fl time e = .fin a := by
  obtain ⟨x, hx⟩ := hProd
  obtain ⟨pd, hpd, hpd0, -⟩ := piD hfl
  obtain ⟨f, hf, hf0, hf1⟩ := freqD_pos hfl he
  have hxb : |x| ≤ MAX_VALUE := by
    rw [hpd] at hx
    cases time with
    | nan => exact absurd hx (by simp [mulD])
    | ninf =>
      have h3 : (0 : ℚ) < pd := by linarith
      exact absurd hx (by simp [mulD, JSNum.scaleInf, h3, ne_of_gt h3])
    | pinf =>
      have h3 : (0 : ℚ) < pd := by linarith
      exact absurd hx (by simp [mulD, JSNum.scaleInf, h3, ne_of_gt h3])
    | fin a => exact hfl.bounded _ _ hx
  have hxf : |x * f| ≤ MAX_VALUE := by
    rw [abs_mul, abs_of_pos hf0]
    calc |x| * f ≤ |x| * 1 := mul_le_mul_of_nonneg_left hf1 (abs_nonneg _)
      _ = |x| := mul_one _
      _ ≤ MAX_VALUE := hxb
  obtain ⟨a, ha, -⟩ := hfl.error _ hxf
  refine ⟨a, ?_⟩
  unfold sineArgD
  rw [hx, hf]
  exact ha

theorem controlBaseD_ne_nan (hfl : IEEERounding fl) (h : Host) {time e : JSNum} {a : ℚ}
    (ha : sineArgD fl time e = .fin a) : controlBaseD fl h time e ≠ .nan := by
  unfold controlBaseD
  rw [ha, hfl.exact_half]
  show addD fl (.fin (1 / 2)) (fl (1 / 2 * h.sin a)) ≠ .nan
  have hn := hfl.ne_nan (1 / 2 * h.sin a)
  generalize fl (1 / 2 * h.sin a) = z at hn
  cases z with
  | nan => exact absurd rfl hn
  | ninf => simp [addD]
  | pinf => simp [addD]
  | fin y => exact hfl.ne_nan _

theorem controlBaseD_unit (hfl : IEEERounding fl) (h : Host)
    (hSin : ∀ x, -1 ≤ h.sin x ∧ h.sin x ≤ 1) {time e : JSNum} {a : ℚ}
    (ha : sineArgD fl time e = .fin a) :
    ∃ b, controlBaseD fl h time e = .fin b ∧ 0 ≤ b ∧ b ≤ 1 := by
  have hs := hSin a
  have h1 : JSNum.le (.fin (-(1 / 2))) (fl (1 / 2 * h.sin a)) := by
    rw [← hfl.exact_neg_half]
    exact hfl.mono _ _ (by linarith [hs.1])
  have h2 : JSNum.le (fl (1 / 2 * h.sin a)) (.fin (1 / 2)) := by
    rw [← hfl.exact_half]
    exact hfl.mono _ _ (by linarith [hs.2])
  obtain ⟨y, hy, hy0, hy1⟩ := le_fin_sandwich h1 h2
  have h3 : JSNum.le (.fin 0) (fl (1 / 2 + y)) := by
    rw [← hfl.exact_zero]
    exact hfl.mono _ _ (by linarith)
  have h4 : JSNum.le (fl (1 / 2 + y)) (.fin 1) := by
    rw [← hfl.exact_one]
    exact hfl.mono _ _ (by linarith)
  obtain ⟨b, hb, hb0, hb1⟩ := le_fin_sandwich h3 h4
  refine ⟨b, ?_, hb0, hb1⟩
  unfold controlBaseD
  rw [ha, hfl.exact_half]
  show addD fl (.fin (1 / 2)) (fl (1 / 2 * h.sin a)) = _
  rw [hy]
  exact hb

theorem clamp_toward {b z : ℚ} (hb0 : 0 ≤ b) (hb1 : b ≤ 1) :
    |Max.max 0 (Min.min 1 z) - b| ≤ |z - b| := by
  rcases le_total z 0 with hz | hz
  · have h1 : Min.min 1 z = z := min_eq_right (by linarith)
    have h2 : Max.max 0 z = 0 := max_eq_left hz
    rw [h1, h2, abs_le]
    have := neg_abs_le (z - b)
    have h3 : |z - b| = -(z - b) := abs_of_nonpos (by linarith)
    constructor <;> linarith
  · rcases le_total z 1 with hz1 | hz1
    · have h1 : Min.min 1 z = z := min_eq_right hz1
      have h2 : Max.max 0 z = z := max_eq_right hz
      rw [h1, h2]
    · have h1 : Min.min 1 z = 1 := min_eq_left hz1
      have h2 : Max.max (0 : ℚ) 1 = 1 := max_eq_right (by norm_num)
      rw [h1, h2]
      have h3 : |z - b| = z - b := abs_of_nonneg (by linarith)
      rw [h3, abs_le]
      constructor <;> linarith

end DoubleLemmas

/-! ## The control value on doubles -/

section DoubleControl

variable {F M σ W ν : Type} {fl : ℚ → JSNum}

theorem saturate_fin {q : ℚ} (hq : |q| ≤ MAX_VALUE) : saturate q = .fin q := by
  have h := abs_le.mp hq
  unfold saturate
  rw [if_neg (by linarith [h.2]), if_neg (by linarith [h.1])]

theorem saturate_ieee : IEEERounding saturate where
  ne_nan := by
    intro q
    unfold saturate
    split_ifs <;> simp
  mono := by
    intro p q hpq
    have hM := maxValue_large
    unfold saturate
    split_ifs <;> simp only [JSNum.le] <;> first | trivial | linarith
  exact_zero := saturate_fin (by have := maxValue_large; simp; linarith)
  exact_half := saturate_fin (by
    have := maxValue_large
    rw [abs_of_pos (by norm_num)]
    linarith)
  exact_neg_half := saturate_fin (by
    have := maxValue_large
    rw [abs_neg, abs_of_pos (by norm_num)]
    linarith)
  exact_one := saturate_fin (by have := maxValue_large; simp; linarith)
  error := by
    intro q hq
    refine ⟨q, saturate_fin hq, ?_⟩
    rw [sub_self, abs_zero]
    positivity
  bounded := by
    intro q x hx
    unfold saturate at hx
    split_ifs at hx with h1 h2
    injection hx with hx
    rw [← hx, abs_le]
    constructor <;> linarith
  overflow_pos := by
    intro q hq
    have h : MAX_VALUE < 2 ^ 1024 := by unfold MAX_VALUE; norm_num
    unfold saturate
    rw [if_pos (by linarith)]
  overflow_neg := by
    intro q hq
    have h : MAX_VALUE < 2 ^ 1024 := by unfold MAX_VALUE; norm_num
    have hM := maxValue_large
    unfold saturate
    rw [if_neg (by linarith), if_pos (by linarith)]

/-- From `2^1023` on (about 8.99e307, so at `1e308`) the product
`this._time * Math.PI` overflows and `Math.sin(Infinity)` makes `base` NaN. -/
theorem controlBaseD_overflow (hfl : IEEERounding fl) (h : Host) {a : ℚ}
    (ha : 2 ^ 1023 ≤ a) {e : JSNum} (he : JSNum.Within 0 1 e) :
    controlBaseD fl h (.fin a) e = .nan := by
  obtain ⟨pd, hpd, hpd0, -⟩ := piD hfl
  obtain ⟨f, hf, hf0, -⟩ := freqD_pos hfl he
  have hbig : (2 : ℚ) ^ 1024 ≤ a * pd := by
    have h1 : (2 : ℚ) ^ 1024 = 2 ^ 1023 * 2 := by norm_num
    have h2 : (0 : ℚ) ≤ 2 ^ 1023 := by positivity
    nlinarith
  have hprod : mulD fl (.fin a) (fl PI_LITERAL) = .pinf := by
    rw [hpd]
    exact hfl.overflow_pos _ hbig
  have harg : sineArgD fl (.fin a) e = .pinf := by
    unfold sineArgD
    rw [hprod, hf]
    simp [mulD, JSNum.scaleInf, hf0, ne_of_gt hf0]
  unfold controlBaseD
  rw [harg, hfl.exact_half]
  rfl

/-- With `base` NaN the control value is NaN. -/
theorem controlValueD_overflow (hfl : IEEERounding fl) (h : Host) {a : ℚ}
    (ha : 2 ^ 1023 ≤ a) {e : JSNum} (he : JSNum.Within 0 1 e) (j : JSNum) :
    controlValueD fl h (.fin a) e j = .nan := by
  unfold controlValueD
  rw [controlBaseD_overflow hfl h ha he]
  cases j <;> rfl

theorem saturate_small {q : ℚ} (hq : |q| ≤ 100) : saturate q = .fin q :=
  saturate_fin (le_trans hq maxValue_large)

theorem engine_first_time :
    stepTimeD saturate (construct engineDeps audioConfig) none = .fin (0 + 16 / 1000) := by
  show addD saturate (.fin 0) (saturate (16 / 1000)) = _
  rw [saturate_small (by rw [abs_of_pos (by norm_num)]; norm_num)]
  exact saturate_small (by rw [abs_of_pos (by norm_num)]; norm_num)

theorem engine_first_product :
    ∃ x : ℚ, mulD saturate (stepTimeD saturate (construct engineDeps audioConfig) none)
      (saturate PI_LITERAL) = .fin x := by
  have hpi : saturate PI_LITERAL = .fin PI_LITERAL :=
    saturate_small (by unfold PI_LITERAL; rw [abs_of_pos (by norm_num)]; norm_num)
  refine ⟨(0 + 16 / 1000) * PI_LITERAL, ?_⟩
  rw [engine_first_time, hpi]
  exact saturate_small (by unfold PI_LITERAL; rw [abs_of_pos (by norm_num)]; norm_num)

theorem engine_entropy_within :
    JSNum.Within 0 1 (stepEntropy engineDeps (construct engineDeps audioConfig)) :=
  entropyOf_within engineDeps.engine _ (fun w _ => by simp [engineDeps, paramEngine])

theorem huge_time {F σ ν : Type} (r : Receiver F σ ν) (ht : r.time = .fin 0) :
    stepTimeD saturate r (some (.fin (10 ^ 308))) = .fin (0 + 10 ^ 308) := by
  show addD saturate r.time (.fin (10 ^ 308)) = _
  rw [ht]
  show saturate (0 + 10 ^ 308) = _
  exact saturate_fin (by unfold MAX_VALUE; rw [abs_of_pos (by norm_num)]; norm_num)

theorem huge_time_overflows : (2 : ℚ) ^ 1023 ≤ 0 + 10 ^ 308 := by norm_num

theorem mulD_nan_left (x : JSNum) : mulD fl .nan x = .nan := by cases x <;> rfl

theorem mulD_nan_right (x : JSNum) : mulD fl x .nan = .nan := by cases x <;> rfl

theorem addD_nan_left (x : JSNum) : addD fl .nan x = .nan := by cases x <;> rfl

theorem addD_nan_right (x : JSNum) : addD fl x .nan = .nan := by cases x <;> rfl

/-- A NaN time makes `base` NaN, whatever the rounding. -/
theorem controlBaseD_nan_time (h : Host) (e : JSNum) : controlBaseD fl h .nan e = .nan := by
  unfold controlBaseD sineArgD
  rw [mulD_nan_left, mulD_nan_left]
  show addD fl (fl (1 / 2)) (mulD fl (fl (1 / 2)) .nan) = .nan
  rw [mulD_nan_right, addD_nan_right]

/-- On `step(NaN)` the control value is NaN, whatever the rounding. -/
theorem stepControlD_nan_dt (d : Deps F M σ W ν) (r : Receiver F σ ν) (u : ℚ) :
    stepBaseD fl d r (some .nan) = .nan ∧ stepControlD fl d r (some .nan) u = .nan := by
  have ht : stepTimeD fl r (some .nan) = .nan := addD_nan_right r.time
  have hb : stepBaseD fl d r (some .nan) = .nan := by
    unfold stepBaseD
    rw [ht, controlBaseD_nan_time]
  refine ⟨hb, ?_⟩
  show clamp01 (addD fl (stepBaseD fl d r (some .nan)) (stepJitterD fl d r u)) = .nan
  rw [hb, addD_nan_left]
  rfl

/-- C2 (amended): on doubles, for every Receiver state whose jitter is not NaN,
every `dt` for which the product `time' * Math.PI` of the advanced time is
finite (the advanced time is finite and the product does not overflow), every
random draw in `[0, 1)`, every Field State whose `persona.plasticity` is not NaN
and every pre-push engine richness other than NaN, the control value `t` of the
tick satisfies `0 <= t <= 1`, and `t` is the value `step` passes to the engine's
`setValue`. -/
theorem c2_control_value_range (hfl : IEEERounding fl) (d : Deps F M σ W ν)
    (r : Receiver F σ ν) (dt : Option JSNum) (u : ℚ)
    (hDraw : 0 ≤ u ∧ u < 1)
    (hProduct : ∃ x : ℚ, mulD fl (stepTimeD fl r dt) (fl PI_LITERAL) = .fin x)
    (hJitter : r.jitter ≠ .nan)
    (hPlasticity : ¬ NaNPlasticity d.field r.fieldState)
    (hRichness : ∀ w, readState d.engine r.synth = some w →
      d.engine.richnessNorm w ≠ .num .nan) :
    InUnitInterval (stepControlD fl d r dt u) ∧
      (stepD fl d r dt u).2.synth = pushValue d.engine r.synth (stepControlD fl d r dt u) ∧
      (∀ s f, r.synth = some s → d.engine.setValue = some f →
        (stepD fl d r dt u).2.synth = some (f s (stepControlD fl d r dt u))) := by
  refine ⟨?_, rfl, ?_⟩
  · have he : JSNum.Within 0 1 (stepEntropy d r) := entropyOf_within d.engine _ hRichness
    obtain ⟨a, ha⟩ := sineArgD_fin hfl he hProduct
    obtain ⟨m, x, -, -, hx, -, -⟩ := nextJitterD_within hfl hJitter
      (plasticityOf_within d.field _ hPlasticity) hDraw.1 hDraw.2
    have hx' : stepJitterD fl d r u = .fin x := hx
    apply inUnitInterval_of_within
    unfold stepControlD controlValueD
    rw [hx']
    exact clamp01_within (addD_fin_ne_nan hfl (controlBaseD_ne_nan hfl d.host ha) x)
  · intro s f hs hf
    show pushValue d.engine r.synth (stepControlD fl d r dt u) = _
    unfold pushValue
    rw [hs, hf]

/-- C18 (amended): on doubles, with a sine that stays within `[-1, 1]`, for every
tick for which the product `time' * Math.PI` is finite, whose incoming jitter is
not NaN, whose draw is in `[0, 1)` and whose plasticity and pre-push richness
are not NaN, `base = 0.5 + 0.5 * sin(time' * pi * freq)` is a number in `[0, 1]`,
the control value is `t = clamp01(base + jitter')`, and
`|t - base| <= 0.1 + 2^-52`: the bound 0.1 up to the rounding of the literal 0.1
and of the addition `base + jitter'`. -/
theorem c18_perturbation_bound (hfl : IEEERounding fl) (d : Deps F M σ W ν)
    (r : Receiver F σ ν) (dt : Option JSNum) (u : ℚ)
    (hSin : ∀ x, -1 ≤ d.host.sin x ∧ d.host.sin x ≤ 1)
    (hDraw : 0 ≤ u ∧ u < 1)
    (hProduct : ∃ x : ℚ, mulD fl (stepTimeD fl r dt) (fl PI_LITERAL) = .fin x)
    (hJitter : r.jitter ≠ .nan)
    (hPlasticity : ¬ NaNPlasticity d.field r.fieldState)
    (hRichness : ∀ w, readState d.engine r.synth = some w →
      d.engine.richnessNorm w ≠ .num .nan) :
    ∃ b t : ℚ,
      stepBaseD fl d r dt = .fin b ∧
        stepControlD fl d r dt u = .fin t ∧
        stepControlD fl d r dt u =
          clamp01 (addD fl (stepBaseD fl d r dt) (stepJitterD fl d r u)) ∧
        0 ≤ b ∧ b ≤ 1 ∧ |t - b| ≤ 1 / 10 + 1 / 2 ^ 52 := by
  have hM := maxValue_large
  have he : JSNum.Within 0 1 (stepEntropy d r) := entropyOf_within d.engine _ hRichness
  obtain ⟨a, ha⟩ := sineArgD_fin hfl he hProduct
  obtain ⟨m, x, -, hme, hx, hx0, hx1⟩ := nextJitterD_within hfl hJitter
    (plasticityOf_within d.field _ hPlasticity) hDraw.1 hDraw.2
  have hx' : stepJitterD fl d r u = .fin x := hx
  obtain ⟨b, hb, hb0, hb1⟩ := controlBaseD_unit hfl d.host hSin ha
  have hb' : stepBaseD fl d r dt = .fin b := hb
  have hm1 := (abs_le.mp hme).1
  have hm2 := (abs_le.mp hme).2
  have hs1 : ((1 : ℚ) / 10) / 2 ^ 53 + 1 / 2 ^ 1075 ≤ 1 / 10 := by norm_num
  have hsum : |b + x| ≤ 12 / 10 := by
    rw [abs_le]
    constructor <;> linarith
  obtain ⟨z, hz, hze⟩ := fl_fin hfl hsum (by linarith)
  refine ⟨b, Max.max 0 (Min.min 1 z), hb', ?_, rfl, hb0, hb1, ?_⟩
  · show clamp01 (addD fl (stepBaseD fl d r dt) (stepJitterD fl d r u)) = _
    rw [hb', hx']
    show clamp01 (fl (b + x)) = _
    rw [hz]
    rfl
  · have h1 := clamp_toward (z := z) hb0 hb1
    have h2 : |z - b| ≤ |z - (b + x)| + |x| := by
      have := abs_add (z - (b + x)) x
      have e : z - (b + x) + x = z - b := by ring
      rw [e] at this
      exact this
    have h3 : |x| ≤ m := abs_le.mpr ⟨hx0, hx1⟩
    have hs2 : ((1 : ℚ) / 10) / 2 ^ 53 + 1 / 2 ^ 1075 + ((12 / 10) / 2 ^ 53 + 1 / 2 ^ 1075) ≤
        1 / 2 ^ 52 := by norm_num
    linarith

end DoubleControl

/-! ## The exact layer is the double layer without rounding -/

section LayerCoherence

variable {F M σ W ν : Type}

theorem addD_exact (x y : JSNum) : addD (fun q => .fin q) x y = JSNum.add x y := by
  cases x <;> cases y <;> rfl

theorem mulD_exact (x y : JSNum) : mulD (fun q => .fin q) x y = JSNum.mul x y := by
  cases x <;> cases y <;> rfl

theorem nextJitterD_exact (j p : JSNum) (u : ℚ) :
    nextJitterD (fun q => .fin q) j p u = nextJitter j p u := by
  unfold nextJitterD nextJitter subD JSNum.sub
  simp only [addD_exact, mulD_exact]
  rfl

theorem controlValueD_exact (h : Host) (time e j : JSNum) :
    controlValueD (fun q => .fin q) h time e j = controlValue h time e j := by
  unfold controlValueD controlValue controlBaseD controlBase sineArgD freqD
  simp only [addD_exact, mulD_exact]
  rfl

/-- With the identity in place of the rounding, `stepD` is `step`. -/
theorem stepD_exact (d : Deps F M σ W ν) (r : Receiver F σ ν) (dt : Option JSNum) (u : ℚ) :
    stepD (fun q => .fin q) d r dt u = step d r dt u := by
  have hT : stepTimeD (fun q => .fin q) r dt = stepTime r dt := by
    unfold stepTimeD stepTime
    rw [addD_exact]
    rfl
  have hJ : stepJitterD (fun q => .fin q) d r u = stepJitter d r u :=
    nextJitterD_exact _ _ u
  have hC : stepControlD (fun q => .fin q) d r dt u = stepControl d r dt u := by
    unfold stepControlD stepControl
    rw [hT, hJ, controlValueD_exact]
  unfold stepD step
  simp only [hT, hJ, hC]

end LayerCoherence

/-! ## Evaluations on doubles -/

section DoubleEvaluations

/-- C2 (amended), evaluated: the first default tick of a Receiver with the
sample engine, under the saturating rounding, pushes a control value in
`[0, 1]`. -/
theorem c2_control_value_range_witness :
    InUnitInterval (stepControlD saturate engineDeps (construct engineDeps audioConfig) none
      (1 / 4)) :=
  (c2_control_value_range saturate_ieee engineDeps (construct engineDeps audioConfig) none
    (1 / 4) ⟨by norm_num, by norm_num⟩ engine_first_product (by decide)
    (fun h => by simp [NaNPlasticity, engineDeps, steadyField, construct, audioConfig] at h)
    (fun w _ => by simp [engineDeps, paramEngine])).1

/-- C18 (amended), evaluated on the first default tick of the sample engine
world under the saturating rounding. -/
theorem c18_perturbation_bound_witness :
    ∃ b t : ℚ,
      stepBaseD saturate engineDeps (construct engineDeps audioConfig) none = .fin b ∧
        stepControlD saturate engineDeps (construct engineDeps audioConfig) none (1 / 4) =
          .fin t ∧
        stepControlD saturate engineDeps (construct engineDeps audioConfig) none (1 / 4) =
          clamp01 (addD saturate
            (stepBaseD saturate engineDeps (construct engineDeps audioConfig) none)
            (stepJitterD saturate engineDeps (construct engineDeps audioConfig) (1 / 4))) ∧
        0 ≤ b ∧ b ≤ 1 ∧ |t - b| ≤ 1 / 10 + 1 / 2 ^ 52 :=
  c18_perturbation_bound saturate_ieee engineDeps (construct engineDeps audioConfig) none
    (1 / 4) (fun _ => by simp [engineDeps, quietHost]) ⟨by norm_num, by norm_num⟩
    engine_first_product (by decide)
    (fun h => by simp [NaNPlasticity, engineDeps, steadyField, construct, audioConfig] at h)
    (fun w _ => by simp [engineDeps, paramEngine])

end DoubleEvaluations

/-! ## Refutations of the unconditional range claims -/

section RangeRefutations

/-- C2 (as stated, refuted): on a freshly constructed Receiver with an engine,
`step(NaN)` computes the control value NaN and passes it to `setValue`, in exact
arithmetic and on doubles alike, and `0 <= NaN` is false; on doubles the finite
`step(1e308)` does the same, because `time' * Math.PI` overflows. -/
theorem c2_control_nan_dt :
    stepControl engineDeps (construct engineDeps audioConfig) (some .nan) (1 / 2) = .nan ∧
      (step engineDeps (construct engineDeps audioConfig) (some .nan) (1 / 2)).2.synth =
        some ⟨.fin 0, .fin 0, .fin 0, .fin 0, .nan⟩ ∧
      ¬ InUnitInterval
        (stepControl engineDeps (construct engineDeps audioConfig) (some .nan) (1 / 2)) ∧
      stepControlD saturate engineDeps (construct engineDeps audioConfig) (some .nan) (1 / 2) =
        .nan ∧
      (stepD saturate engineDeps (construct engineDeps audioConfig) (some .nan)
        (1 / 2)).2.synth = some ⟨.fin 0, .fin 0, .fin 0, .fin 0, .nan⟩ ∧
      stepControlD saturate engineDeps (construct engineDeps audioConfig)
        (some (.fin (10 ^ 308))) (1 / 2) = .nan ∧
      ¬ InUnitInterval (stepControlD saturate engineDeps (construct engineDeps audioConfig)
        (some (.fin (10 ^ 308))) (1 / 2)) := by
  have h : stepControl engineDeps (construct engineDeps audioConfig) (some .nan) (1 / 2) =
      .nan := rfl
  have hD : stepControlD saturate engineDeps (construct engineDeps audioConfig) (some .nan)
      (1 / 2) = .nan := (stepControlD_nan_dt engineDeps _ (1 / 2)).2
  have hBig : stepControlD saturate engineDeps (construct engineDeps audioConfig)
      (some (.fin (10 ^ 308))) (1 / 2) = .nan := by
    unfold stepControlD
    rw [huge_time _ rfl]
    exact controlValueD_overflow saturate_ieee _ huge_time_overflows engine_entropy_within _
  refine ⟨h, rfl, ?_, hD, ?_, hBig, ?_⟩
  · rw [h]
    exact fun hb => hb.1
  · show pushValue engineDeps.engine (construct engineDeps audioConfig).synth
      (stepControlD saturate engineDeps (construct engineDeps audioConfig) (some .nan)
        (1 / 2)) = _
    rw [hD]
    rfl
  · rw [hBig]
    exact fun hb => hb.1

/-- C18 (as stated, refuted): on `step(NaN)` the sinusoid `base` is NaN, which
does not lie in `[0, 1]`, and so is the control value, in exact arithmetic and
on doubles alike, although the host's sine stays within `[-1, 1]`; on doubles
the finite `step(1e308)` gives a NaN `base` too. -/
theorem c18_base_nan_dt :
    controlBase steadyDeps.host
        (stepTime (construct steadyDeps (seedConfig (.num (.fin 42)))) (some .nan))
        (stepEntropy steadyDeps (construct steadyDeps (seedConfig (.num (.fin 42))))) = .nan ∧
      ¬ InUnitInterval (controlBase steadyDeps.host
        (stepTime (construct steadyDeps (seedConfig (.num (.fin 42)))) (some .nan))
        (stepEntropy steadyDeps (construct steadyDeps (seedConfig (.num (.fin 42)))))) ∧
      stepControl steadyDeps (construct steadyDeps (seedConfig (.num (.fin 42))))
        (some .nan) (1 / 2) = .nan ∧
      stepBaseD saturate steadyDeps (construct steadyDeps (seedConfig (.num (.fin 42))))
        (some .nan) = .nan ∧
      stepBaseD saturate steadyDeps (construct steadyDeps (seedConfig (.num (.fin 42))))
        (some (.fin (10 ^ 308))) = .nan ∧
      ¬ InUnitInterval (stepBaseD saturate steadyDeps
        (construct steadyDeps (seedConfig (.num (.fin 42)))) (some (.fin (10 ^ 308)))) := by
  have h : controlBase steadyDeps.host
      (stepTime (construct steadyDeps (seedConfig (.num (.fin 42)))) (some .nan))
      (stepEntropy steadyDeps (construct steadyDeps (seedConfig (.num (.fin 42))))) =
      .nan := rfl
  have hBig : stepBaseD saturate steadyDeps (construct steadyDeps (seedConfig (.num (.fin 42))))
      (some (.fin (10 ^ 308))) = .nan := by
    unfold stepBaseD
    rw [huge_time _ rfl]
    exact controlBaseD_overflow saturate_ieee _ huge_time_overflows
      ⟨0, rfl, le_refl _, by norm_num⟩
  refine ⟨h, ?_, rfl, (stepControlD_nan_dt steadyDeps _ (1 / 2)).1, hBig, ?_⟩
  · rw [h]
    exact fun hb => hb.1
  · rw [hBig]
    exact fun hb => hb.1

end RangeRefutations

end ReceiverModel
